import Mathlib

/-!
Verification development for the earlove "Heard Profile" core:
a shallow embedding of the rate-limited Spotify client (`lib/spotify.ts`),
the phase builders (`lib/heard-profile.ts`) and the analysis engine
(`lib/profile-analysis.ts`), with theorems checking the specified behaviour.
-/

set_option maxRecDepth 4000

/-- JS `parseInt(s, 10)`: skip leading whitespace, an optional sign, then read the
longest digit prefix; `none` models `NaN` (no digit found). -/
def jsParseInt (s : String) : Option Int :=
  let cs := s.data.dropWhile (fun c => c.isWhitespace)
  let signRest : Int × List Char :=
    match cs with
    | '-' :: r => (-1, r)
    | '+' :: r => (1, r)
    | r => (1, r)
  let digits := signRest.2.takeWhile (fun c => c.isDigit)
  if digits.isEmpty then none
  else some (signRest.1 * (digits.foldl (fun acc c => acc * 10 + (c.toNat - 48)) 0 : ℕ))

-- ─── Rate-limited client: `SpotifyClient.fetch` (lib/spotify.ts) ───

/-- A simulated upstream HTTP response: status code, optional `Retry-After`
header value, and the response body (standing in for the decoded JSON). -/
structure UpResponse where
  status : ℕ
  retryAfter : Option String
  body : String
deriving DecidableEq

/-- The errors `SpotifyClient.fetch` can throw: the distinguished
`rate_limit_long:<seconds>` message, a terminal `Spotify <status>: <body>`
message, and the (unreachable) post-loop `Spotify 429: rate limited` message. -/
inductive FetchError where
  | rateLimitLong (seconds : Int)
  | upstream (status : ℕ) (body : String)
  | retriesExhausted
deriving DecidableEq

/-- A `fetch` call either returns the decoded body or throws a `FetchError`. -/
inductive FetchResult where
  | ok (body : String)
  | err (e : FetchError)
deriving DecidableEq

/-- Outcome of one `fetch` call: the result plus instrumentation — how many
HTTP requests were issued and how many milliseconds were spent in
`setTimeout` waits. -/
structure FetchOutcome where
  result : FetchResult
  calls : ℕ
  waitedMs : ℕ
deriving DecidableEq

/-- Milliseconds slept for one retry: `setTimeout(r, retryAfter * 1000)`;
a `NaN` (none) or negative delay fires immediately. -/
def retryWaitMs (parsed : Option Int) : ℕ :=
  match parsed with
  | none => 0
  | some v => (max v 0).toNat * 1000

/-- The body of `SpotifyClient.fetch`'s retry loop. `fuel` counts the loop
iterations left (`MAX_RETRIES + 1 - attempt`); `up` gives the upstream's
response to each attempt. On 429 the `Retry-After` header is parsed
(defaulting to the string `"5"`); a parsed value above `MAX_WAIT_S = 30`
throws `rate_limit_long` at once (note `NaN > 30` is false in JS, hence
`parsed.getD 0`); otherwise, if a retry remains, the loop sleeps and
continues; a 429 on the final attempt falls through to the `!response.ok`
check and is thrown as a terminal upstream error. -/
def clientFetchAux (up : ℕ → UpResponse) : ℕ → ℕ → ℕ → ℕ → FetchOutcome
  | 0, _, calls, waited => ⟨.err .retriesExhausted, calls, waited⟩
  | fuel + 1, attempt, calls, waited =>
    let r := up attempt
    let parsed := jsParseInt (r.retryAfter.getD "5")
    if r.status = 429 ∧ 30 < parsed.getD 0 then
      ⟨.err (.rateLimitLong (parsed.getD 0)), calls + 1, waited⟩
    else if r.status = 429 ∧ 0 < fuel then
      clientFetchAux up fuel (attempt + 1) (calls + 1) (waited + retryWaitMs parsed)
    else if ¬ (200 ≤ r.status ∧ r.status < 300) then
      ⟨.err (.upstream r.status r.body), calls + 1, waited⟩
    else
      ⟨.ok r.body, calls + 1, waited⟩

/-- `SpotifyClient.fetch` with `MAX_RETRIES = 3`: the loop runs attempts
`0..3`, i.e. one initial request plus at most three retries. -/
def clientFetch (up : ℕ → UpResponse) : FetchOutcome :=
  clientFetchAux up 4 0 0 0

-- ─── C1 support lemmas ─────────────────────────────────────────

lemma jsParseInt_five : jsParseInt "5" = some 5 := by decide

lemma clientFetchAux_ok (up : ℕ → UpResponse) (fuel attempt calls waited : ℕ)
    (h1 : 200 ≤ (up attempt).status) (h2 : (up attempt).status < 300) :
    clientFetchAux up (fuel + 1) attempt calls waited =
      ⟨.ok (up attempt).body, calls + 1, waited⟩ := by
  simp only [clientFetchAux]
  rw [if_neg (fun h => absurd h.1 (by omega)),
    if_neg (fun h => absurd h.1 (by omega)),
    if_neg (not_not_intro ⟨h1, h2⟩)]

lemma clientFetchAux_retry (up : ℕ → UpResponse) (fuel attempt calls waited : ℕ)
    (hfuel : 0 < fuel)
    (h429 : (up attempt).status = 429)
    (v : Int) (hv : jsParseInt (((up attempt).retryAfter).getD "5") = some v)
    (hv30 : v ≤ 30) :
    clientFetchAux up (fuel + 1) attempt calls waited =
      clientFetchAux up fuel (attempt + 1) (calls + 1)
        (waited + retryWaitMs (some v)) := by
  simp only [clientFetchAux, hv, Option.getD_some]
  rw [if_neg (fun h => absurd h.2 hv30.not_lt), if_pos ⟨h429, hfuel⟩]

lemma clientFetchAux_long (up : ℕ → UpResponse) (fuel attempt calls waited : ℕ)
    (h429 : (up attempt).status = 429)
    (v : Int) (hv : jsParseInt (((up attempt).retryAfter).getD "5") = some v)
    (hv30 : 30 < v) :
    clientFetchAux up (fuel + 1) attempt calls waited =
      ⟨.err (.rateLimitLong v), calls + 1, waited⟩ := by
  simp only [clientFetchAux, hv, Option.getD_some]
  rw [if_pos ⟨h429, hv30⟩]

lemma clientFetchAux_calls_le (up : ℕ → UpResponse) :
    ∀ fuel attempt calls waited,
      (clientFetchAux up fuel attempt calls waited).calls ≤ calls + fuel := by
  intro fuel
  induction fuel with
  | zero => intro attempt calls waited; simp [clientFetchAux]
  | succ f ih =>
    intro attempt calls waited
    simp only [clientFetchAux]
    split
    · simp
    · split
      · exact le_trans (ih _ _ _) (by omega)
      · split <;> simp

/-- Successful-retry shape: if the first `k` attempts (from `attempt`) get a
429 whose `Retry-After` parses to a value in `[0, 30]` and attempt `k` gets a
2xx, the loop returns that body after `k + 1` requests, having slept the sum
of the suggested delays. -/
lemma clientFetchAux_run_ok (up : ℕ → UpResponse) (v : ℕ → Int) :
    ∀ k fuel attempt calls waited, k < fuel →
      (∀ i, i < k → (up (attempt + i)).status = 429 ∧
        jsParseInt (((up (attempt + i)).retryAfter).getD "5") = some (v (attempt + i)) ∧
        0 ≤ v (attempt + i) ∧ v (attempt + i) ≤ 30) →
      200 ≤ (up (attempt + k)).status → (up (attempt + k)).status < 300 →
      clientFetchAux up fuel attempt calls waited =
        ⟨.ok (up (attempt + k)).body, calls + k + 1,
          waited + ∑ i ∈ Finset.range k, retryWaitMs (some (v (attempt + i)))⟩ := by
  intro k
  induction k with
  | zero =>
    intro fuel attempt calls waited hk _ h1 h2
    obtain ⟨f, rfl⟩ : ∃ f, fuel = f + 1 := ⟨fuel - 1, by omega⟩
    rw [clientFetchAux_ok up f attempt calls waited (by simpa using h1) (by simpa using h2)]
    simp
  | succ k ih =>
    intro fuel attempt calls waited hk hpre h1 h2
    obtain ⟨f, rfl⟩ : ∃ f, fuel = f + 1 := ⟨fuel - 1, by omega⟩
    obtain ⟨h429, hv, hv0, hv30⟩ := hpre 0 (Nat.succ_pos k)
    rw [clientFetchAux_retry up f attempt calls waited (by omega)
      (by simpa using h429) (v (attempt + 0)) (by simpa using hv) (by simpa using hv30)]
    have ek : attempt + (k + 1) = attempt + 1 + k := by omega
    rw [ek] at h1 h2
    rw [ih f (attempt + 1) (calls + 1) (waited + retryWaitMs (some (v (attempt + 0))))
      (by omega)
      (fun i hi => by
        have h := hpre (i + 1) (by omega)
        have e : attempt + (i + 1) = attempt + 1 + i := by omega
        rwa [e] at h)
      h1 h2]
    have hsum : ∑ i ∈ Finset.range (k + 1), retryWaitMs (some (v (attempt + i))) =
        (∑ i ∈ Finset.range k, retryWaitMs (some (v (attempt + 1 + i)))) +
          retryWaitMs (some (v (attempt + 0))) := by
      rw [Finset.sum_range_succ']
      congr 1
      refine Finset.sum_congr rfl (fun i _ => ?_)
      have e : attempt + (i + 1) = attempt + 1 + i := by omega
      rw [e]
    rw [hsum]
    have haddr : attempt + 1 + k = attempt + (k + 1) := by omega
    rw [haddr]
    congr 1 <;> omega

/-- C1. `SpotifyClient.fetch` backoff contract: (a) a first-attempt 429 whose
`Retry-After` parses above 30 seconds fails immediately with
`rate_limit_long:<seconds>` after exactly one request and no waiting;
(b) if `k ≤ 3` attempts get a 429 with a suggested wait in `[0, 30]` seconds
and attempt `k` succeeds, the client returns the decoded body, having issued
`k + 1` requests and slept each suggested delay; (c) an absent `Retry-After`
header defaults to 5 seconds; (d) at most 4 requests (3 retries) ever occur. -/
theorem c1_client_backoff (up : ℕ → UpResponse) :
    (∀ s v, (up 0).status = 429 → (up 0).retryAfter = some s →
      jsParseInt s = some v → 30 < v →
      clientFetch up = ⟨.err (.rateLimitLong v), 1, 0⟩) ∧
    (∀ k (v : ℕ → Int), k ≤ 3 →
      (∀ i, i < k → (up i).status = 429 ∧
        jsParseInt (((up i).retryAfter).getD "5") = some (v i) ∧
        0 ≤ v i ∧ v i ≤ 30) →
      200 ≤ (up k).status → (up k).status < 300 →
      clientFetch up =
        ⟨.ok (up k).body, k + 1, ∑ i ∈ Finset.range k, retryWaitMs (some (v i))⟩) ∧
    (Option.getD none "5" = "5" ∧ jsParseInt "5" = some 5) ∧
    (clientFetch up).calls ≤ 4 := by
  refine ⟨?_, ?_, ⟨rfl, jsParseInt_five⟩, ?_⟩
  · intro s v h429 hs hv h30
    have hv0 : jsParseInt (((up 0).retryAfter).getD "5") = some v := by rw [hs]; exact hv
    unfold clientFetch
    rw [show (4 : ℕ) = 3 + 1 from rfl, clientFetchAux_long up 3 0 0 0 h429 v hv0 h30]
  · intro k v hk hpre h1 h2
    unfold clientFetch
    rw [clientFetchAux_run_ok up v k 4 0 0 0 (by omega)
      (fun i hi => by simpa using hpre i hi) (by simpa using h1) (by simpa using h2)]
    simp
  · simpa using clientFetchAux_calls_le up 4 0 0 0

/-- C1 witness: the two scenarios of the spec's backoff contract, concretely.
`Retry-After: 45` fails at once with `rate_limit_long:45` and one request;
`Retry-After: 5` twice then a 200 succeeds after 10 simulated seconds. -/
theorem c1_client_backoff_witness :
    (clientFetch (fun _ => ⟨429, some "45", "ignored"⟩) =
      ⟨.err (.rateLimitLong 45), 1, 0⟩) ∧
    (clientFetch (fun n => if n < 2 then ⟨429, some "5", ""⟩ else ⟨200, none, "B"⟩) =
      ⟨.ok "B", 3, 10000⟩) := by
  constructor
  · exact (c1_client_backoff (fun _ => ⟨429, some "45", "ignored"⟩)).1 "45" 45
      rfl rfl (by decide) (by decide)
  · refine ((c1_client_backoff
      (fun n => if n < 2 then ⟨429, some "5", ""⟩ else ⟨200, none, "B"⟩)).2.1 2
      (fun _ => 5) (by omega) (fun i hi => by
        interval_cases i <;> exact ⟨rfl, by decide, by decide, by decide⟩)
      (by norm_num) (by norm_num)).trans ?_
    simp only [Finset.sum_range_succ, Finset.sum_range_zero, retryWaitMs]
    decide

-- ─── Tracks and the aggregate accumulators (lib/heard-profile.ts) ──

/-- An artist reference as it appears on a track object: `{ id, name }`.
An empty `id` models a falsy id (the code guards with `if (artist.id)`). -/
structure ArtistRef where
  id : String
  name : String
deriving DecidableEq

/-- The track fields `processTrack` reads. An empty `id` models a falsy
`track.id`; `releaseDate` is `track.album?.release_date` (absent album or
date collapses to `none`, the empty string stays a falsy string). -/
structure Track where
  id : String
  name : String
  artists : List ArtistRef
  releaseDate : Option String
  popularity : Option Int
  durationMs : Option Int
  explicit : Bool
deriving DecidableEq

/-- The accumulators threaded through `processTrack`. JS `Set`s become
`Finset`s, counter `Map`s become total functions with default `0`
(mirroring `?? 0`), `artistNames` becomes a last-writer-wins function. -/
structure TrackAccum where
  trackIds : Finset String
  artistIds : Finset String
  artistNames : String → Option String
  decadeDistribution : String → ℕ
  releaseYears : List Int
  trackPopularities : List Int
  popularityTracks : List (String × String × Int)
  enrichedDurations : List Int
  explicitCount : ℕ
  totalProcessed : ℕ

/-- The accumulators as freshly created at the start of a phase. -/
def emptyTrackAccum : TrackAccum :=
  ⟨∅, ∅, fun _ => none, fun _ => 0, [], [], [], [], 0, 0⟩

/-- The decade bucket label: `` `${Math.floor(year / 10) * 10}s` ``. -/
def decadeOf (year : Int) : String :=
  toString (Int.fdiv year 10 * 10) ++ "s"

/-- The parsed release year: `parseInt(releaseDate.slice(0, 4), 10)` behind
the `if (releaseDate)` truthiness guard; `none` for NaN or no date. -/
def parsedReleaseYear (track : Track) : Option Int :=
  match track.releaseDate with
  | none => none
  | some rd => if rd = "" then none else jsParseInt (rd.take 4)

/-- `processTrack` stage: `trackIds.add(track.id)`. -/
def ptIds (track : Track) (acc : TrackAccum) : TrackAccum :=
  { acc with trackIds := insert track.id acc.trackIds }

/-- One iteration of the `track.artists?.forEach` loop: add the artist id
and name, guarded by `if (artist.id)`. -/
def artStep (acc : TrackAccum) (artist : ArtistRef) : TrackAccum :=
  if artist.id = "" then acc
  else
    { acc with
      artistIds := insert artist.id acc.artistIds,
      artistNames := fun k =>
        if k = artist.id then some artist.name else acc.artistNames k }

/-- `processTrack` stage: the `track.artists?.forEach` loop. -/
def ptArtists (track : Track) (acc : TrackAccum) : TrackAccum :=
  track.artists.foldl artStep acc

/-- `processTrack` stage: release-date handling — a sane year
(`> 1900`, `≤ currentYear + 1`) is pushed onto `releaseYears` and bumps its
decade bucket; anything else leaves both untouched. -/
def ptDate (currentYear : Int) (track : Track) (acc : TrackAccum) : TrackAccum :=
  match parsedReleaseYear track with
  | none => acc
  | some year =>
    if 1900 < year ∧ year ≤ currentYear + 1 then
      { acc with
        releaseYears := acc.releaseYears ++ [year],
        decadeDistribution := fun d =>
          if d = decadeOf year then acc.decadeDistribution d + 1
          else acc.decadeDistribution d }
    else acc

/-- `processTrack` stage: popularity capture, only when the optional
`trackPopularities` accumulator was passed (`withPop`); `popularityTracks`
is additionally guarded by its own presence flag. -/
def ptPop (withPop withPopTracks : Bool) (track : Track) (acc : TrackAccum) : TrackAccum :=
  if withPop then
    match track.popularity with
    | none => acc
    | some pop =>
      { acc with
        trackPopularities := acc.trackPopularities ++ [pop],
        popularityTracks :=
          if withPopTracks then
            acc.popularityTracks ++
              [(track.name,
                String.intercalate ", " (track.artists.map (fun a => a.name)), pop)]
          else acc.popularityTracks }
  else acc

/-- `processTrack` stage: enriched data (duration, explicit flag, processed
count), only when the optional `enriched` accumulator was passed. -/
def ptEnriched (withEnriched : Bool) (track : Track) (acc : TrackAccum) : TrackAccum :=
  if withEnriched then
    { acc with
      totalProcessed := acc.totalProcessed + 1,
      enrichedDurations :=
        match track.durationMs with
        | some d =>
          if 0 < d then acc.enrichedDurations ++ [d] else acc.enrichedDurations
        | none => acc.enrichedDurations,
      explicitCount :=
        if track.explicit then acc.explicitCount + 1 else acc.explicitCount }
  else acc

/-- `processTrack` (heard-profile.ts 144-201), parameterized by the ambient
current year (`new Date().getFullYear()`) and by which optional accumulator
arguments were passed. A falsy `track.id` returns immediately. The
`_processTrackCallCount` diagnostic counter is not modelled. -/
def processTrack (currentYear : Int) (withPop withPopTracks withEnriched : Bool)
    (track : Track) (acc : TrackAccum) : TrackAccum :=
  if track.id = "" then acc
  else
    ptEnriched withEnriched track
      (ptPop withPop withPopTracks track
        (ptDate currentYear track
          (ptArtists track (ptIds track acc))))

-- ─── Genre accumulators and `addGenre` (heard-profile.ts 540-545) ──

/-- Insertion into a JS `Set` materialized as an insertion-ordered
duplicate-free list: append only if absent. -/
def listInsertSet (x : String) (l : List String) : List String :=
  if x ∈ l then l else l ++ [x]

/-- The genre-phase accumulators of `buildGenres`: `knownGenres` (a `Set`),
`genreFrequency` (a counter `Map` with `?? 0` default) and `genreArtists`
(a `Map` from genre to a `Set` of artist names). -/
structure GenresState where
  knownGenres : Finset String
  genreFrequency : String → ℕ
  genreArtists : String → List String

/-- The empty genre-phase state. -/
def emptyGenresState : GenresState := ⟨∅, fun _ => 0, fun _ => []⟩

/-- `addGenre` (heard-profile.ts 540-545): adds the genre to `knownGenres`,
unconditionally bumps the genre's frequency counter, and adds the artist
name to the genre's name `Set`. -/
def addGenre (st : GenresState) (genre artistName : String) : GenresState :=
  { knownGenres := insert genre st.knownGenres,
    genreFrequency := fun g =>
      if g = genre then st.genreFrequency g + 1 else st.genreFrequency g,
    genreArtists := fun g =>
      if g = genre then listInsertSet artistName (st.genreArtists g)
      else st.genreArtists g }

-- ─── Stage lemmas for `processTrack` ─────────────────────────────

lemma artStep_fields (acc : TrackAccum) (a : ArtistRef) :
    (artStep acc a).trackIds = acc.trackIds ∧
    (artStep acc a).decadeDistribution = acc.decadeDistribution ∧
    (artStep acc a).releaseYears = acc.releaseYears ∧
    acc.artistIds ⊆ (artStep acc a).artistIds := by
  unfold artStep
  split
  · exact ⟨rfl, rfl, rfl, Finset.Subset.refl _⟩
  · exact ⟨rfl, rfl, rfl, Finset.subset_insert _ _⟩

lemma artFold_fields (l : List ArtistRef) :
    ∀ acc : TrackAccum,
      (l.foldl artStep acc).trackIds = acc.trackIds ∧
      (l.foldl artStep acc).decadeDistribution = acc.decadeDistribution ∧
      (l.foldl artStep acc).releaseYears = acc.releaseYears ∧
      acc.artistIds ⊆ (l.foldl artStep acc).artistIds := by
  induction l with
  | nil => exact fun acc => ⟨rfl, rfl, rfl, Finset.Subset.refl _⟩
  | cons a l ih =>
    intro acc
    simp only [List.foldl_cons]
    obtain ⟨h1, h2, h3, h4⟩ := artStep_fields acc a
    obtain ⟨g1, g2, g3, g4⟩ := ih (artStep acc a)
    exact ⟨g1.trans h1, g2.trans h2, g3.trans h3, h4.trans g4⟩

lemma ptArtists_timeline (track : Track) (acc : TrackAccum) :
    (ptArtists track acc).releaseYears = acc.releaseYears ∧
    (ptArtists track acc).decadeDistribution = acc.decadeDistribution ∧
    (ptArtists track acc).trackIds = acc.trackIds := by
  obtain ⟨h1, h2, h3, _⟩ := artFold_fields track.artists acc
  exact ⟨h3, h2, h1⟩

lemma ptArtists_mono (track : Track) (acc : TrackAccum) :
    acc.trackIds ⊆ (ptArtists track acc).trackIds ∧
    acc.artistIds ⊆ (ptArtists track acc).artistIds ∧
    (∀ d, acc.decadeDistribution d ≤ (ptArtists track acc).decadeDistribution d) := by
  obtain ⟨h1, h2, _, h4⟩ := artFold_fields track.artists acc
  exact ⟨h1.ge.subset, h4, fun d => (congrFun h2 d).ge⟩

lemma ptDate_mono (currentYear : Int) (track : Track) (acc : TrackAccum) :
    acc.trackIds ⊆ (ptDate currentYear track acc).trackIds ∧
    acc.artistIds ⊆ (ptDate currentYear track acc).artistIds ∧
    (∀ d, acc.decadeDistribution d ≤ (ptDate currentYear track acc).decadeDistribution d) := by
  unfold ptDate
  split
  · exact ⟨Finset.Subset.refl _, Finset.Subset.refl _, fun _ => le_refl _⟩
  · split
    · refine ⟨Finset.Subset.refl _, Finset.Subset.refl _, fun d => ?_⟩
      dsimp only
      split <;> omega
    · exact ⟨Finset.Subset.refl _, Finset.Subset.refl _, fun _ => le_refl _⟩

lemma ptPop_fields (withPop withPopTracks : Bool) (track : Track) (acc : TrackAccum) :
    (ptPop withPop withPopTracks track acc).trackIds = acc.trackIds ∧
    (ptPop withPop withPopTracks track acc).artistIds = acc.artistIds ∧
    (ptPop withPop withPopTracks track acc).decadeDistribution = acc.decadeDistribution ∧
    (ptPop withPop withPopTracks track acc).releaseYears = acc.releaseYears := by
  unfold ptPop
  split
  · split <;> exact ⟨rfl, rfl, rfl, rfl⟩
  · exact ⟨rfl, rfl, rfl, rfl⟩

lemma ptEnriched_fields (withEnriched : Bool) (track : Track) (acc : TrackAccum) :
    (ptEnriched withEnriched track acc).trackIds = acc.trackIds ∧
    (ptEnriched withEnriched track acc).artistIds = acc.artistIds ∧
    (ptEnriched withEnriched track acc).decadeDistribution = acc.decadeDistribution ∧
    (ptEnriched withEnriched track acc).releaseYears = acc.releaseYears := by
  unfold ptEnriched
  split <;> exact ⟨rfl, rfl, rfl, rfl⟩

lemma processTrack_mono (currentYear : Int) (p pt e : Bool) (t : Track) (acc : TrackAccum) :
    acc.trackIds ⊆ (processTrack currentYear p pt e t acc).trackIds ∧
    acc.artistIds ⊆ (processTrack currentYear p pt e t acc).artistIds ∧
    (∀ d, acc.decadeDistribution d ≤
      (processTrack currentYear p pt e t acc).decadeDistribution d) := by
  unfold processTrack
  split
  · exact ⟨Finset.Subset.refl _, Finset.Subset.refl _, fun _ => le_refl _⟩
  · set a1 := ptIds t acc with ha1
    set a2 := ptArtists t a1 with ha2
    set a3 := ptDate currentYear t a2 with ha3
    set a4 := ptPop p pt t a3 with ha4
    have h1 : acc.trackIds ⊆ a1.trackIds ∧ acc.artistIds ⊆ a1.artistIds ∧
        ∀ d, acc.decadeDistribution d ≤ a1.decadeDistribution d := by
      exact ⟨Finset.subset_insert _ _, Finset.Subset.refl _, fun _ => le_refl _⟩
    have h2 := ptArtists_mono t a1
    have h3 := ptDate_mono currentYear t a2
    have h4 := ptPop_fields p pt t a3
    have h5 := ptEnriched_fields e t a4
    refine ⟨?_, ?_, fun d => ?_⟩
    · rw [h5.1, h4.1]
      exact (h1.1.trans h2.1).trans h3.1
    · rw [h5.2.1, h4.2.1]
      exact (h1.2.1.trans h2.2.1).trans h3.2.1
    · rw [h5.2.2.1, h4.2.2.1]
      exact le_trans (le_trans (h1.2.2 d) (h2.2.2 d)) (h3.2.2 d)

lemma addGenre_mono (st : GenresState) (g n : String) :
    st.knownGenres ⊆ (addGenre st g n).knownGenres ∧
    (∀ g2, st.genreFrequency g2 ≤ (addGenre st g n).genreFrequency g2) := by
  refine ⟨Finset.subset_insert _ _, fun g2 => ?_⟩
  unfold addGenre
  dsimp only
  split <;> omega

/-- C9. The aggregate only grows: one `processTrack` call, and any fold of
`processTrack` calls, never removes a track or artist identifier and never
decreases a decade-distribution counter; one `addGenre` call, and any fold of
`addGenre` calls, never removes a known genre and never decreases a
genre-frequency counter. -/
theorem c9_aggregate_monotone :
    (∀ (currentYear : Int) (p pt e : Bool) (t : Track) (acc : TrackAccum),
      acc.trackIds ⊆ (processTrack currentYear p pt e t acc).trackIds ∧
      acc.artistIds ⊆ (processTrack currentYear p pt e t acc).artistIds ∧
      (∀ d, acc.decadeDistribution d ≤
        (processTrack currentYear p pt e t acc).decadeDistribution d)) ∧
    (∀ (currentYear : Int) (p pt e : Bool) (ts : List Track) (acc : TrackAccum),
      acc.trackIds ⊆
        (ts.foldl (fun a t => processTrack currentYear p pt e t a) acc).trackIds ∧
      acc.artistIds ⊆
        (ts.foldl (fun a t => processTrack currentYear p pt e t a) acc).artistIds ∧
      (∀ d, acc.decadeDistribution d ≤
        (ts.foldl (fun a t => processTrack currentYear p pt e t a) acc).decadeDistribution d)) ∧
    (∀ (st : GenresState) (g n : String),
      st.knownGenres ⊆ (addGenre st g n).knownGenres ∧
      (∀ g2, st.genreFrequency g2 ≤ (addGenre st g n).genreFrequency g2)) ∧
    (∀ (obs : List (String × String)) (st : GenresState),
      st.knownGenres ⊆
        (obs.foldl (fun a o => addGenre a o.1 o.2) st).knownGenres ∧
      (∀ g2, st.genreFrequency g2 ≤
        (obs.foldl (fun a o => addGenre a o.1 o.2) st).genreFrequency g2)) := by
  refine ⟨fun cy p pt e t acc => processTrack_mono cy p pt e t acc, ?_, addGenre_mono, ?_⟩
  · intro cy p pt e ts
    induction ts with
    | nil => exact fun acc => ⟨Finset.Subset.refl _, Finset.Subset.refl _, fun _ => le_refl _⟩
    | cons t l ih =>
      intro acc
      simp only [List.foldl_cons]
      have h := processTrack_mono cy p pt e t acc
      exact ⟨h.1.trans (ih _).1, h.2.1.trans (ih _).2.1,
        fun d => le_trans (h.2.2 d) ((ih _).2.2 d)⟩
  · intro obs
    induction obs with
    | nil => exact fun st => ⟨Finset.Subset.refl _, fun _ => le_refl _⟩
    | cons o l ih =>
      intro st
      simp only [List.foldl_cons]
      have h := addGenre_mono st o.1 o.2
      exact ⟨h.1.trans (ih _).1, fun g2 => le_trans (h.2 g2) ((ih _).2 g2)⟩

-- ─── C5: decade bucketing in `processTrack` ──────────────────────

lemma ptDate_sane (currentYear y : Int) (t : Track) (a : TrackAccum)
    (hy : parsedReleaseYear t = some y) (h1 : 1900 < y) (h2 : y ≤ currentYear + 1) :
    (ptDate currentYear t a).releaseYears = a.releaseYears ++ [y] ∧
    ∀ d, (ptDate currentYear t a).decadeDistribution d =
      a.decadeDistribution d + if d = decadeOf y then 1 else 0 := by
  unfold ptDate
  simp only [hy]
  rw [if_pos ⟨h1, h2⟩]
  refine ⟨rfl, fun d => ?_⟩
  dsimp only
  split <;> simp

lemma ptDate_insane (currentYear : Int) (t : Track) (a : TrackAccum)
    (h : ∀ y, parsedReleaseYear t = some y → ¬ (1900 < y ∧ y ≤ currentYear + 1)) :
    ptDate currentYear t a = a := by
  unfold ptDate
  split
  · rfl
  · next y heq => rw [if_neg (h y heq)]

lemma processTrack_timeline (currentYear : Int) (p pt e : Bool) (t : Track)
    (acc : TrackAccum) (hid : ¬ t.id = "") :
    (processTrack currentYear p pt e t acc).releaseYears =
      (ptDate currentYear t (ptArtists t (ptIds t acc))).releaseYears ∧
    (processTrack currentYear p pt e t acc).decadeDistribution =
      (ptDate currentYear t (ptArtists t (ptIds t acc))).decadeDistribution := by
  unfold processTrack
  rw [if_neg hid]
  obtain ⟨_, _, e3, e4⟩ := ptEnriched_fields e t (ptPop p pt t
    (ptDate currentYear t (ptArtists t (ptIds t acc))))
  obtain ⟨_, _, o3, o4⟩ := ptPop_fields p pt t
    (ptDate currentYear t (ptArtists t (ptIds t acc)))
  exact ⟨e4.trans o4, e3.trans o3⟩

lemma processTrack_mem_id (currentYear : Int) (p pt e : Bool) (t : Track)
    (acc : TrackAccum) (hid : ¬ t.id = "") :
    t.id ∈ (processTrack currentYear p pt e t acc).trackIds := by
  unfold processTrack
  rw [if_neg hid]
  obtain ⟨e1, _, _, _⟩ := ptEnriched_fields e t (ptPop p pt t
    (ptDate currentYear t (ptArtists t (ptIds t acc))))
  obtain ⟨o1, _, _, _⟩ := ptPop_fields p pt t
    (ptDate currentYear t (ptArtists t (ptIds t acc)))
  rw [e1, o1]
  refine (ptDate_mono currentYear t _).1 ((ptArtists_mono t _).1 ?_)
  exact Finset.mem_insert_self _ _

/-- C5. A track with a falsy-free id whose release date parses to a sane year
(`> 1900` and `≤ currentYear + 1`) appends that year to `releaseYears` and
bumps exactly the bucket of that year's decade; any other parse outcome
leaves both the decade distribution and `releaseYears` untouched; in all
cases the track id still enters `trackIds` (and is therefore counted by
`totalTracksAnalyzed = trackIds.size`). -/
theorem c5_decade_bucketing (currentYear : Int) (p pt e : Bool) (t : Track)
    (acc : TrackAccum) (hid : ¬ t.id = "") :
    (∀ y, parsedReleaseYear t = some y → 1900 < y → y ≤ currentYear + 1 →
      (processTrack currentYear p pt e t acc).releaseYears = acc.releaseYears ++ [y] ∧
      (∀ d, (processTrack currentYear p pt e t acc).decadeDistribution d =
        acc.decadeDistribution d + if d = decadeOf y then 1 else 0)) ∧
    ((∀ y, parsedReleaseYear t = some y → ¬ (1900 < y ∧ y ≤ currentYear + 1)) →
      (processTrack currentYear p pt e t acc).releaseYears = acc.releaseYears ∧
      (∀ d, (processTrack currentYear p pt e t acc).decadeDistribution d =
        acc.decadeDistribution d)) ∧
    t.id ∈ (processTrack currentYear p pt e t acc).trackIds := by
  obtain ⟨hry, hdd⟩ := processTrack_timeline currentYear p pt e t acc hid
  obtain ⟨ay, ad, _⟩ := ptArtists_timeline t (ptIds t acc)
  refine ⟨?_, ?_, processTrack_mem_id currentYear p pt e t acc hid⟩
  · intro y hy h1 h2
    obtain ⟨sy, sd⟩ := ptDate_sane currentYear y t (ptArtists t (ptIds t acc)) hy h1 h2
    constructor
    · rw [hry, sy, ay]; rfl
    · intro d
      rw [hdd, sd d, ad]; rfl
  · intro h
    have hfix := ptDate_insane currentYear t (ptArtists t (ptIds t acc)) h
    constructor
    · rw [hry, hfix, ay]; rfl
    · intro d
      rw [hdd, hfix, ad]; rfl

/-- C5 witness: release date `"1994-03-01"` (current year 2026) bumps the
`"1990s"` bucket and contributes 1994 to `releaseYears`; `"1850-01-01"` is
excluded from both; both tracks still land in `trackIds`. -/
theorem c5_decade_bucketing_witness :
    ((processTrack 2026 false false true
        ⟨"t94", "A", [⟨"a1", "Artist"⟩], some "1994-03-01", none, none, false⟩
        emptyTrackAccum).releaseYears = [1994] ∧
      (processTrack 2026 false false true
        ⟨"t94", "A", [⟨"a1", "Artist"⟩], some "1994-03-01", none, none, false⟩
        emptyTrackAccum).decadeDistribution "1990s" = 1) ∧
    ((processTrack 2026 false false true
        ⟨"t50", "B", [], some "1850-01-01", none, none, false⟩
        emptyTrackAccum).releaseYears = [] ∧
      (processTrack 2026 false false true
        ⟨"t50", "B", [], some "1850-01-01", none, none, false⟩
        emptyTrackAccum).decadeDistribution "1850s" = 0 ∧
      "t50" ∈ (processTrack 2026 false false true
        ⟨"t50", "B", [], some "1850-01-01", none, none, false⟩
        emptyTrackAccum).trackIds) := by
  have h94 := c5_decade_bucketing 2026 false false true
    ⟨"t94", "A", [⟨"a1", "Artist"⟩], some "1994-03-01", none, none, false⟩
    emptyTrackAccum (by decide)
  have h50 := c5_decade_bucketing 2026 false false true
    ⟨"t50", "B", [], some "1850-01-01", none, none, false⟩
    emptyTrackAccum (by decide)
  obtain ⟨hy94, hd94⟩ := h94.1 1994 (by decide) (by decide) (by decide)
  obtain ⟨hy50, hd50⟩ := h50.2.1 (by
    intro y hy
    have hs : some y = some (1850 : Int) := by rw [← hy]; decide
    have : y = 1850 := by simpa using hs
    omega)
  refine ⟨⟨by simpa using hy94, ?_⟩, ⟨by simpa using hy50, ?_, h50.2.2⟩⟩
  · rw [hd94 "1990s"]
    norm_num [emptyTrackAccum]
    decide
  · rw [hd50 "1850s"]
    rfl

-- ─── Phase 2: `buildLibrary` (heard-profile.ts 344-427) ──────────

/-- A saved-track item: the track plus its optional `added_at` timestamp. -/
structure SavedTrack where
  track : Track
  addedAt : Option String
deriving DecidableEq

/-- One page of the saved-tracks endpoint: the items plus the library's
reported total. -/
structure SavedPage where
  tracks : List SavedTrack
  total : ℕ

/-- Process one page of saved tracks the way `buildLibrary` does: each item
goes through `processTrack` (with the `enriched` accumulator only) and a
truthy `added_at` is collected. -/
def processSavedPage (currentYear : Int) (page : List SavedTrack)
    (st : TrackAccum × List String) : TrackAccum × List String :=
  page.foldl (fun a item =>
    (processTrack currentYear false false true item.track a.1,
      match item.addedAt with
      | some d => if d = "" then a.2 else a.2 ++ [d]
      | none => a.2)) st

/-- Result of the `while (offset < savedTotal && pagesScanned < maxPages)`
loop of `buildLibrary`: final state, final `offset`, pages scanned inside
the loop, and whether a thrown fetch ended it early. -/
structure LibLoopOut where
  state : TrackAccum × List String
  offset : ℕ
  pages : ℕ
  failed : Bool

/-- The pagination loop of `buildLibrary`; `fuel` is
`maxPages - pagesScanned`, and `offset` advances by the page size 50. -/
def libLoop (currentYear : Int) (fetch : ℕ → Except Unit SavedPage)
    (savedTotal : ℕ) : ℕ → ℕ → TrackAccum × List String → LibLoopOut
  | 0, offset, st => ⟨st, offset, 0, false⟩
  | fuel + 1, offset, st =>
    if offset < savedTotal then
      match fetch offset with
      | .error _ => ⟨st, offset, 0, true⟩
      | .ok page =>
        let out := libLoop currentYear fetch savedTotal fuel (offset + 50)
          (processSavedPage currentYear page.tracks st)
        ⟨out.state, out.offset, out.pages + 1, out.failed⟩
    else ⟨st, offset, 0, false⟩

/-- The slice of `buildLibrary`'s result the claims concern, plus the
internal final `offset` (`scanEnd`), `pagesScanned` and the caught-error
flag as ghost observations. -/
structure LibraryResult where
  acc : TrackAccum
  addedAtDates : List String
  savedTotal : ℕ
  nextOffset : Option ℕ
  scanEnd : ℕ
  pagesScanned : ℕ
  failed : Bool

/-- `buildLibrary` (heard-profile.ts 344-427): fetch the page at
`startOffset` unconditionally, record its reported `total` as `savedTotal`,
then loop over further pages while `offset < savedTotal` and fewer than
`maxPages` pages were scanned. A thrown fetch is caught (`try/catch`),
keeping whatever was accumulated — a failing *first* page therefore leaves
`savedTotal = 0`. `done := offset >= savedTotal` and
`nextOffset := done ? null : offset`. (Timing, logging, the
earliest/latest `added_at` derivation and `popularityUnavailable` are not
modelled; the raw `addedAtDates` list is kept.) -/
def buildLibrary (currentYear : Int) (fetch : ℕ → Except Unit SavedPage)
    (startOffset : ℕ) (maxPages : ℕ) : LibraryResult :=
  match fetch startOffset with
  | .error _ =>
    { acc := emptyTrackAccum, addedAtDates := [], savedTotal := 0,
      nextOffset := none, scanEnd := startOffset, pagesScanned := 0,
      failed := true }
  | .ok first =>
    let st := processSavedPage currentYear first.tracks (emptyTrackAccum, [])
    let out := libLoop currentYear fetch first.total (maxPages - 1)
      (startOffset + 50) st
    { acc := out.state.1, addedAtDates := out.state.2,
      savedTotal := first.total,
      nextOffset := if first.total ≤ out.offset then none else some out.offset,
      scanEnd := out.offset, pagesScanned := out.pages + 1,
      failed := out.failed }

/-- The saved-tracks endpoint backed by a fixed underlying library: the page
at `offset` is `lib[offset, offset + 50)` and the reported total is
`lib.length`. -/
def savedTracksOf (lib : List SavedTrack) (offset : ℕ) : Except Unit SavedPage :=
  .ok ⟨(lib.drop offset).take 50, lib.length⟩

/-- The track ids a list of saved tracks contributes (falsy ids skipped). -/
def savedIds (l : List SavedTrack) : Finset String :=
  l.foldr (fun item s =>
    if item.track.id = "" then s else insert item.track.id s) ∅

-- ─── Library support lemmas ─────────────────────────────────────

lemma ptDate_trackIds (cy : Int) (t : Track) (a : TrackAccum) :
    (ptDate cy t a).trackIds = a.trackIds := by
  unfold ptDate
  split
  · rfl
  · split <;> rfl

lemma processTrack_trackIds (cy : Int) (p pt e : Bool) (t : Track) (acc : TrackAccum) :
    (processTrack cy p pt e t acc).trackIds =
      if t.id = "" then acc.trackIds else insert t.id acc.trackIds := by
  unfold processTrack
  split
  · rfl
  · rw [(ptEnriched_fields e t _).1, (ptPop_fields p pt t _).1, ptDate_trackIds]
    unfold ptArtists
    rw [(artFold_fields t.artists _).1]
    rfl

lemma savedIds_cons (h : SavedTrack) (l : List SavedTrack) :
    savedIds (h :: l) =
      if h.track.id = "" then savedIds l else insert h.track.id (savedIds l) := rfl

lemma savedIds_append (l1 l2 : List SavedTrack) :
    savedIds (l1 ++ l2) = savedIds l1 ∪ savedIds l2 := by
  induction l1 with
  | nil => simp [savedIds]
  | cons h l ih =>
    rw [List.cons_append, savedIds_cons, savedIds_cons, ih]
    split
    · rfl
    · rw [Finset.insert_union]

lemma processSavedPage_trackIds (cy : Int) (page : List SavedTrack) :
    ∀ st : TrackAccum × List String,
      (processSavedPage cy page st).1.trackIds = st.1.trackIds ∪ savedIds page := by
  induction page with
  | nil => intro st; simp [processSavedPage, savedIds]
  | cons h l ih =>
    intro st
    unfold processSavedPage at ih ⊢
    simp only [List.foldl_cons]
    rw [ih]
    dsimp only
    rw [processTrack_trackIds]
    by_cases hid : h.track.id = ""
    · rw [if_pos hid, savedIds_cons, if_pos hid]
    · rw [if_neg hid, savedIds_cons, if_neg hid,
        Finset.insert_union, Finset.union_insert]

lemma libLoop_spec (cy : Int) (lib : List SavedTrack) :
    ∀ (fuel offset : ℕ) (st : TrackAccum × List String),
      ∃ k, k ≤ fuel ∧
        libLoop cy (savedTracksOf lib) lib.length fuel offset st =
          ⟨((libLoop cy (savedTracksOf lib) lib.length fuel offset st).state.1,
            (libLoop cy (savedTracksOf lib) lib.length fuel offset st).state.2),
            offset + 50 * k, k,
            false⟩ ∧
        (libLoop cy (savedTracksOf lib) lib.length fuel offset st).state.1.trackIds =
          st.1.trackIds ∪ savedIds ((lib.drop offset).take (50 * k)) ∧
        (lib.length ≤ offset + 50 * k ∨ k = fuel) := by
  intro fuel
  induction fuel with
  | zero =>
    intro offset st
    refine ⟨0, le_refl _, ?_, ?_, Or.inr rfl⟩
    · simp [libLoop]
    · simp [libLoop, savedIds]
  | succ f ih =>
    intro offset st
    by_cases hlt : offset < lib.length
    · have hstep : libLoop cy (savedTracksOf lib) lib.length (f + 1) offset st =
          ⟨(libLoop cy (savedTracksOf lib) lib.length f (offset + 50)
              (processSavedPage cy ((lib.drop offset).take 50) st)).state,
            (libLoop cy (savedTracksOf lib) lib.length f (offset + 50)
              (processSavedPage cy ((lib.drop offset).take 50) st)).offset,
            (libLoop cy (savedTracksOf lib) lib.length f (offset + 50)
              (processSavedPage cy ((lib.drop offset).take 50) st)).pages + 1,
            (libLoop cy (savedTracksOf lib) lib.length f (offset + 50)
              (processSavedPage cy ((lib.drop offset).take 50) st)).failed⟩ := by
        simp only [libLoop, savedTracksOf]
        rw [if_pos hlt]
      obtain ⟨k, hk, hout, hids, hterm⟩ :=
        ih (offset + 50) (processSavedPage cy ((lib.drop offset).take 50) st)
      have ho := congrArg LibLoopOut.offset hout
      have hpg := congrArg LibLoopOut.pages hout
      have hf := congrArg LibLoopOut.failed hout
      dsimp only at ho hpg hf
      refine ⟨k + 1, by omega, ?_, ?_, ?_⟩
      · rw [hstep]
        dsimp only
        rw [ho, hpg, hf]
        have harith : offset + 50 + 50 * k = offset + 50 * (k + 1) := by ring
        rw [harith]
      · rw [hstep]
        dsimp only
        rw [hids, processSavedPage_trackIds]
        have hsplit : (lib.drop offset).take (50 * (k + 1)) =
            (lib.drop offset).take 50 ++ ((lib.drop offset).drop 50).take (50 * k) := by
          have h5 : 50 * (k + 1) = 50 + 50 * k := by ring
          rw [h5, List.take_add]
        rw [hsplit, savedIds_append, Finset.union_assoc]
        have hdd : (lib.drop offset).drop 50 = lib.drop (offset + 50) := by
          rw [List.drop_drop]
        rw [hdd]
      · rcases hterm with h | h
        · exact Or.inl (by omega)
        · exact Or.inr (by omega)
    · have hred : libLoop cy (savedTracksOf lib) lib.length (f + 1) offset st =
          ⟨st, offset, 0, false⟩ := by
        simp only [libLoop]
        rw [if_neg hlt]
      refine ⟨0, by omega, ?_, ?_, Or.inl (by omega)⟩
      · rw [hred]
        rfl
      · rw [hred]
        simp [savedIds]

lemma buildLibrary_run (cy : Int) (lib : List SavedTrack) (startOffset maxPages : ℕ) :
    ∃ p, 1 ≤ p ∧
      (buildLibrary cy (savedTracksOf lib) startOffset maxPages).savedTotal = lib.length ∧
      (buildLibrary cy (savedTracksOf lib) startOffset maxPages).scanEnd =
        startOffset + 50 * p ∧
      (buildLibrary cy (savedTracksOf lib) startOffset maxPages).pagesScanned = p ∧
      (buildLibrary cy (savedTracksOf lib) startOffset maxPages).failed = false ∧
      (buildLibrary cy (savedTracksOf lib) startOffset maxPages).nextOffset =
        (if lib.length ≤ startOffset + 50 * p then none else some (startOffset + 50 * p)) ∧
      (buildLibrary cy (savedTracksOf lib) startOffset maxPages).acc.trackIds =
        savedIds ((lib.drop startOffset).take (50 * p)) ∧
      (lib.length ≤ startOffset + 50 * p ∨ maxPages ≤ p) := by
  have hbuild : buildLibrary cy (savedTracksOf lib) startOffset maxPages =
      { acc := (libLoop cy (savedTracksOf lib) lib.length (maxPages - 1)
          (startOffset + 50)
          (processSavedPage cy ((lib.drop startOffset).take 50)
            (emptyTrackAccum, []))).state.1,
        addedAtDates := (libLoop cy (savedTracksOf lib) lib.length (maxPages - 1)
          (startOffset + 50)
          (processSavedPage cy ((lib.drop startOffset).take 50)
            (emptyTrackAccum, []))).state.2,
        savedTotal := lib.length,
        nextOffset := if lib.length ≤ (libLoop cy (savedTracksOf lib) lib.length
            (maxPages - 1) (startOffset + 50)
            (processSavedPage cy ((lib.drop startOffset).take 50)
              (emptyTrackAccum, []))).offset then none
          else some ((libLoop cy (savedTracksOf lib) lib.length (maxPages - 1)
            (startOffset + 50)
            (processSavedPage cy ((lib.drop startOffset).take 50)
              (emptyTrackAccum, []))).offset),
        scanEnd := (libLoop cy (savedTracksOf lib) lib.length (maxPages - 1)
          (startOffset + 50)
          (processSavedPage cy ((lib.drop startOffset).take 50)
            (emptyTrackAccum, []))).offset,
        pagesScanned := (libLoop cy (savedTracksOf lib) lib.length (maxPages - 1)
          (startOffset + 50)
          (processSavedPage cy ((lib.drop startOffset).take 50)
            (emptyTrackAccum, []))).pages + 1,
        failed := (libLoop cy (savedTracksOf lib) lib.length (maxPages - 1)
          (startOffset + 50)
          (processSavedPage cy ((lib.drop startOffset).take 50)
            (emptyTrackAccum, []))).failed } := by
    simp only [buildLibrary, savedTracksOf]
  obtain ⟨k, hk, hout, hids, hterm⟩ := libLoop_spec cy lib (maxPages - 1)
    (startOffset + 50) (processSavedPage cy ((lib.drop startOffset).take 50)
      (emptyTrackAccum, []))
  have ho := congrArg LibLoopOut.offset hout
  have hpg := congrArg LibLoopOut.pages hout
  have hf := congrArg LibLoopOut.failed hout
  dsimp only at ho hpg hf
  have harith : startOffset + 50 + 50 * k = startOffset + 50 * (k + 1) := by ring
  refine ⟨k + 1, by omega, ?_, ?_, ?_, ?_, ?_, ?_, ?_⟩
  · rw [hbuild]
  · rw [hbuild]
    dsimp only
    rw [ho, harith]
  · rw [hbuild]
    dsimp only
    rw [hpg]
  · rw [hbuild]
    dsimp only
    rw [hf]
  · rw [hbuild]
    dsimp only
    rw [ho, harith]
  · rw [hbuild]
    dsimp only
    rw [hids, processSavedPage_trackIds]
    have hsplit : (lib.drop startOffset).take (50 * (k + 1)) =
        (lib.drop startOffset).take 50 ++
          ((lib.drop startOffset).drop 50).take (50 * k) := by
      have h5 : 50 * (k + 1) = 50 + 50 * k := by ring
      rw [h5, List.take_add]
    rw [hsplit, savedIds_append]
    have hdd : (lib.drop startOffset).drop 50 = lib.drop (startOffset + 50) := by
      rw [List.drop_drop]
    rw [hdd]
    have : emptyTrackAccum.trackIds = ∅ := rfl
    rw [this, Finset.empty_union]
  · rcases hterm with h | h
    · exact Or.inl (by omega)
    · exact Or.inr (by omega)

lemma buildLibrary_complete (cy : Int) (lib : List SavedTrack)
    (startOffset maxPages : ℕ)
    (hM : lib.length ≤ startOffset + 50 * maxPages) :
    (buildLibrary cy (savedTracksOf lib) startOffset maxPages).nextOffset = none ∧
    (buildLibrary cy (savedTracksOf lib) startOffset maxPages).acc.trackIds =
      savedIds (lib.drop startOffset) := by
  obtain ⟨p, hp1, _, _, _, _, hno, hids, hterm⟩ :=
    buildLibrary_run cy lib startOffset maxPages
  have hdone : lib.length ≤ startOffset + 50 * p := by
    rcases hterm with h | h
    · exact h
    · have : 50 * maxPages ≤ 50 * p := by omega
      omega
  refine ⟨?_, ?_⟩
  · rw [hno, if_pos hdone]
  · rw [hids]
    congr 1
    apply List.take_of_length_le
    rw [List.length_drop]
    omega

/-- Run the Library scan repeatedly, threading each invocation's returned
`nextOffset` cursor into the next invocation's `startOffset` until it is
`null` (the orchestration boundary's resumption contract), accumulating the
union of the discovered track-id sets. `fuel` bounds the invocations. -/
def chainLibrary (cy : Int) (lib : List SavedTrack) (cap : ℕ) :
    ℕ → ℕ → Finset String → Finset String
  | 0, _, s => s
  | fuel + 1, start, s =>
    match (buildLibrary cy (savedTracksOf lib) start cap).nextOffset with
    | none => s ∪ (buildLibrary cy (savedTracksOf lib) start cap).acc.trackIds
    | some o => chainLibrary cy lib cap fuel o
        (s ∪ (buildLibrary cy (savedTracksOf lib) start cap).acc.trackIds)

lemma chainLibrary_covers (cy : Int) (lib : List SavedTrack) (cap : ℕ) :
    ∀ fuel start s, s = savedIds (lib.take start) →
      lib.length ≤ start + 50 * fuel →
      chainLibrary cy lib cap fuel start s = savedIds lib := by
  intro fuel
  induction fuel with
  | zero =>
    intro start s hs hlen
    show s = savedIds lib
    rw [hs]
    congr 1
    apply List.take_of_length_le
    omega
  | succ f ih =>
    intro start s hs hlen
    obtain ⟨p, hp1, _, _, _, _, hno, hids, _⟩ := buildLibrary_run cy lib start cap
    have hunion : s ∪ (buildLibrary cy (savedTracksOf lib) start cap).acc.trackIds =
        savedIds (lib.take (start + 50 * p)) := by
      rw [hs, hids, ← savedIds_append, ← List.take_add]
    by_cases hdone : lib.length ≤ start + 50 * p
    · have hnone : (buildLibrary cy (savedTracksOf lib) start cap).nextOffset = none := by
        rw [hno, if_pos hdone]
      simp only [chainLibrary, hnone]
      rw [hunion]
      congr 1
      apply List.take_of_length_le
      omega
    · have hsome : (buildLibrary cy (savedTracksOf lib) start cap).nextOffset =
          some (start + 50 * p) := by
        rw [hno, if_neg hdone]
      simp only [chainLibrary, hsome]
      exact ih (start + 50 * p) _ hunion (by omega)

/-- C4. Pagination resumption: chaining capped Library scans through the
`nextOffset` cursor until it is `null` discovers exactly the track-id set of
a single scan whose page allowance covers the whole collection; and an
invocation's `nextOffset` is `null` exactly when its final scan position has
reached the collection's total (when not `null`, it equals that position,
which is still short of the total). -/
theorem c4_pagination_resumption (cy : Int) (lib : List SavedTrack) (cap M : ℕ)
    (hM : lib.length ≤ 50 * M) :
    chainLibrary cy lib cap (lib.length + 1) 0 ∅ =
      (buildLibrary cy (savedTracksOf lib) 0 M).acc.trackIds ∧
    (∀ start,
      ((buildLibrary cy (savedTracksOf lib) start cap).nextOffset = none ↔
        lib.length ≤ (buildLibrary cy (savedTracksOf lib) start cap).scanEnd) ∧
      (∀ o, (buildLibrary cy (savedTracksOf lib) start cap).nextOffset = some o →
        o = (buildLibrary cy (savedTracksOf lib) start cap).scanEnd ∧
          o < lib.length)) := by
  constructor
  · have hchain : chainLibrary cy lib cap (lib.length + 1) 0 ∅ = savedIds lib := by
      apply chainLibrary_covers cy lib cap (lib.length + 1) 0 ∅
      · simp [savedIds]
      · omega
    have hsingle := (buildLibrary_complete cy lib 0 M (by omega)).2
    rw [hchain, hsingle, List.drop_zero]
  · intro start
    obtain ⟨p, hp1, _, hse, _, _, hno, _, _⟩ := buildLibrary_run cy lib start cap
    constructor
    · rw [hno, hse]
      by_cases hdone : lib.length ≤ start + 50 * p
      · simp [if_pos hdone, hdone]
      · simp [if_neg hdone, hdone]
    · intro o hsome
      rw [hno] at hsome
      by_cases hdone : lib.length ≤ start + 50 * p
      · rw [if_pos hdone] at hsome
        exact absurd hsome (by simp)
      · rw [if_neg hdone] at hsome
        have : o = start + 50 * p := by
          have := hsome
          simp only [Option.some.injEq] at this
          omega
        rw [this, hse]
        omega

/-- C4 witness: a 2-track library scanned with a 1-page cap, chained through
the cursor, equals the single 1-page (covering) scan; concretely both are
the id set `{s1, s2}`. -/
theorem c4_pagination_resumption_witness :
    chainLibrary 2026 [⟨⟨"s1", "N1", [], none, none, none, false⟩, none⟩,
        ⟨⟨"s2", "N2", [], none, none, none, false⟩, none⟩] 1 3 0 ∅ =
      (buildLibrary 2026 (savedTracksOf
        [⟨⟨"s1", "N1", [], none, none, none, false⟩, none⟩,
         ⟨⟨"s2", "N2", [], none, none, none, false⟩, none⟩]) 0 1).acc.trackIds ∧
    (buildLibrary 2026 (savedTracksOf
        [⟨⟨"s1", "N1", [], none, none, none, false⟩, none⟩,
         ⟨⟨"s2", "N2", [], none, none, none, false⟩, none⟩]) 0 1).acc.trackIds =
      {"s2", "s1"} := by
  constructor
  · exact (c4_pagination_resumption 2026
      [⟨⟨"s1", "N1", [], none, none, none, false⟩, none⟩,
       ⟨⟨"s2", "N2", [], none, none, none, false⟩, none⟩] 1 1 (by decide)).1
  · decide

/-- C10. If the very first saved-tracks request of an offset-0 Library scan
throws, `buildLibrary` swallows the error and returns empty `trackIds` and
`artistIds`, `savedTotal = 0` and `nextOffset = null` — on those fields
exactly what a scan of an empty library returns, so the caller cannot tell
a failed first page from an empty library. -/
theorem c10_library_first_page_failure (cy : Int)
    (fetch : ℕ → Except Unit SavedPage) (maxPages : ℕ)
    (h : fetch 0 = .error ()) :
    (buildLibrary cy fetch 0 maxPages).acc.trackIds = ∅ ∧
    (buildLibrary cy fetch 0 maxPages).acc.artistIds = ∅ ∧
    (buildLibrary cy fetch 0 maxPages).savedTotal = 0 ∧
    (buildLibrary cy fetch 0 maxPages).nextOffset = none ∧
    (buildLibrary cy fetch 0 maxPages).acc.trackIds =
      (buildLibrary cy (savedTracksOf []) 0 maxPages).acc.trackIds ∧
    (buildLibrary cy fetch 0 maxPages).savedTotal =
      (buildLibrary cy (savedTracksOf []) 0 maxPages).savedTotal ∧
    (buildLibrary cy fetch 0 maxPages).nextOffset =
      (buildLibrary cy (savedTracksOf []) 0 maxPages).nextOffset := by
  have hb : buildLibrary cy fetch 0 maxPages =
      { acc := emptyTrackAccum, addedAtDates := [], savedTotal := 0,
        nextOffset := none, scanEnd := 0, pagesScanned := 0, failed := true } := by
    unfold buildLibrary
    rw [h]
  obtain ⟨p, hp1, hst, _, _, _, hno, hids, _⟩ := buildLibrary_run cy [] 0 maxPages
  have hids0 : (buildLibrary cy (savedTracksOf []) 0 maxPages).acc.trackIds = ∅ := by
    rw [hids]
    simp [savedIds]
  have hst0 : (buildLibrary cy (savedTracksOf []) 0 maxPages).savedTotal = 0 := by
    rw [hst]
    rfl
  have hno0 : (buildLibrary cy (savedTracksOf []) 0 maxPages).nextOffset = none := by
    rw [hno, if_pos (by simp)]
  rw [hb]
  exact ⟨rfl, rfl, rfl, rfl, hids0.symm, hst0.symm, hno0.symm⟩

/-- C10 witness: a concretely failing first page with the default 20-page
cap produces the empty-library completion signal. -/
theorem c10_library_first_page_failure_witness :
    (buildLibrary 2026 (fun _ => .error ()) 0 20).acc.trackIds = ∅ ∧
    (buildLibrary 2026 (fun _ => .error ()) 0 20).savedTotal = 0 ∧
    (buildLibrary 2026 (fun _ => .error ()) 0 20).nextOffset = none := by
  obtain ⟨h1, _, h3, h4, _⟩ :=
    c10_library_first_page_failure 2026 (fun _ => .error ()) 20 rfl
  exact ⟨h1, h3, h4⟩

-- ─── Phase 4: `buildGenres` (heard-profile.ts 526-630) ───────────

/-- The `PROBE_GENRES` catalog of heard-profile.ts (30 labels). -/
def PROBE_GENRES : List String :=
  ["rock", "pop", "hip-hop", "r-n-b", "electronic", "indie",
   "alternative", "jazz", "soul", "folk", "country", "metal",
   "punk", "blues", "funk", "classical", "reggae", "latin",
   "house", "ambient", "disco", "dance", "synth-pop", "new-wave",
   "post-punk", "shoegaze", "grunge", "lo-fi", "trip-hop", "neo-soul"]

/-- An artist object as returned by `client.getArtist`. -/
structure ArtistData where
  name : String
  genres : List String

/-- The error classes `buildGenres` distinguishes: a message starting with
`rate_limit_long:` breaks a loop, anything else is swallowed. -/
inductive ClientErr where
  | longCooldown
  | other
deriving DecidableEq

/-- The two client operations the genre phase performs: a single-artist
lookup and a `genre:"<label>"` track search (the 10-result probe). -/
structure GenreClient where
  getArtist : String → Except ClientErr ArtistData
  search : String → Except ClientErr (List Track)

/-- An element of `preloadedArtistGenres`. -/
structure PreloadedArtistGenres where
  artistName : String
  genres : List String

/-- An upstream request started by the genre phase, tagged with the elapsed
wall-clock reading of the `timeRemaining()` guard that allowed it. -/
inductive GenreEvent where
  | artistLookup (elapsedMs : ℕ) (artistId : String)
  | probe (elapsedMs : ℕ) (genre : String)
deriving DecidableEq

/-- The elapsed-time tag of a genre-phase request event. -/
def GenreEvent.elapsed : GenreEvent → ℕ
  | .artistLookup e _ => e
  | .probe e _ => e

/-- The preloaded-genres pass: `addGenre` once per (artist, genre)
observation, in list order. -/
def preloadGenres (l : List PreloadedArtistGenres) (st : GenresState) : GenresState :=
  l.foldl (fun s pre =>
    pre.genres.foldl (fun s2 g => addGenre s2 g pre.artistName) s) st

/-- The state after `buildGenres`'s preloaded-genres block
(`if (preloadedArtistGenres && preloadedArtistGenres.length > 0)`). -/
def buildGenresAfterPreload
    (preloaded : Option (List PreloadedArtistGenres)) : GenresState :=
  match preloaded with
  | some l => if l.isEmpty then emptyGenresState else preloadGenres l emptyGenresState
  | none => emptyGenresState

/-- The artist-lookup loop over `idsToFetch`: each iteration reads
`timeRemaining()` (the clock at index `k`) and breaks below the 5s margin;
otherwise the lookup starts (recorded as an event); a `rate_limit_long:`
error breaks the loop, other errors are swallowed; an artist with a
nonempty `genres` array is credited via `addGenre` per genre. -/
def genreArtistLoop (client : GenreClient) (clock : ℕ → ℕ) :
    List String → ℕ → GenresState → List GenreEvent →
      GenresState × ℕ × List GenreEvent
  | [], k, st, evs => (st, k, evs)
  | id :: rest, k, st, evs =>
    if (50000 : ℤ) - clock k < 5000 then (st, k + 1, evs)
    else
      match client.getArtist id with
      | .ok artist =>
        genreArtistLoop client clock rest (k + 1)
          (if artist.genres ≠ [] then
            artist.genres.foldl (fun s g => addGenre s g artist.name) st
          else st)
          (evs ++ [.artistLookup (clock k) id])
      | .error .longCooldown => (st, k + 1, evs ++ [.artistLookup (clock k) id])
      | .error .other =>
        genreArtistLoop client clock rest (k + 1) st
          (evs ++ [.artistLookup (clock k) id])

/-- The artist-lookup section: runs only when no genre is known yet and
(reading the clock at index 0) more than 20s of budget remain; fetches the
first 8 artist ids. Returns state, next clock index, events. -/
def buildGenresArtistPhase (client : GenreClient) (clock : ℕ → ℕ)
    (artistIdList : List String) (st1 : GenresState) :
    GenresState × ℕ × List GenreEvent :=
  if st1.knownGenres = ∅ then
    if (50000 : ℤ) - clock 0 > 20000 then
      genreArtistLoop client clock (artistIdList.take 8) 1 st1 []
    else (st1, 1, [])
  else (st1, 0, [])

/-- The probe loop over `genresToProbe`: each iteration reads
`timeRemaining()` and breaks below the **3s** margin; otherwise the search
probe starts (recorded); per returned track, per artist, a known artist id
pushes its name onto `matchedNames`; a nonempty match list credits the
genre once per collected name; `rate_limit_long:` breaks, other errors are
swallowed. -/
def genreProbeLoop (client : GenreClient) (clock : ℕ → ℕ)
    (artistIds : Finset String) :
    List String → ℕ → GenresState → List GenreEvent →
      GenresState × ℕ × List GenreEvent
  | [], k, st, evs => (st, k, evs)
  | genre :: rest, k, st, evs =>
    if (50000 : ℤ) - clock k < 3000 then (st, k + 1, evs)
    else
      match client.search genre with
      | .ok tracks =>
        genreProbeLoop client clock artistIds rest (k + 1)
          (if (tracks.foldl (fun ns t =>
              t.artists.foldl (fun ns2 a =>
                if a.id ∈ artistIds then ns2 ++ [a.name] else ns2) ns) []) ≠ [] then
            (tracks.foldl (fun ns t =>
              t.artists.foldl (fun ns2 a =>
                if a.id ∈ artistIds then ns2 ++ [a.name] else ns2) ns) []).foldl
              (fun s n => addGenre s genre n) st
          else st)
          (evs ++ [.probe (clock k) genre])
      | .error .longCooldown => (st, k + 1, evs ++ [.probe (clock k) genre])
      | .error .other =>
        genreProbeLoop client clock artistIds rest (k + 1) st
          (evs ++ [.probe (clock k) genre])

/-- The probe section: entered only for a nonempty `genresToProbe` (the
probe catalog minus known genres), a nonempty known-artist set, and
(reading the clock) more than 5s of remaining budget. -/
def buildGenresProbePhase (client : GenreClient) (clock : ℕ → ℕ)
    (artistIdList : List String) (x : GenresState × ℕ × List GenreEvent) :
    GenresState × List GenreEvent :=
  if (PROBE_GENRES.filter (fun g => g ∉ x.1.knownGenres)) ≠ [] ∧
      artistIdList.toFinset ≠ ∅ then
    if (50000 : ℤ) - clock x.2.1 > 5000 then
      ((genreProbeLoop client clock artistIdList.toFinset
          (PROBE_GENRES.filter (fun g => g ∉ x.1.knownGenres))
          (x.2.1 + 1) x.1 x.2.2).1,
        (genreProbeLoop client clock artistIdList.toFinset
          (PROBE_GENRES.filter (fun g => g ∉ x.1.knownGenres))
          (x.2.1 + 1) x.1 x.2.2).2.2)
    else (x.1, x.2.2)
  else (x.1, x.2.2)

/-- `buildGenres` (heard-profile.ts 526-630) with time made explicit:
`clock n` is the elapsed wall-clock in ms at the n-th modelled
`timeRemaining()` guard read (reads done only for logging are not
modelled; `TIME_BUDGET_MS = 50_000`). Returns the final accumulators and
the trace of upstream requests started. -/
def buildGenres (client : GenreClient) (clock : ℕ → ℕ)
    (artistIdList : List String)
    (preloaded : Option (List PreloadedArtistGenres)) :
    GenresState × List GenreEvent :=
  buildGenresProbePhase client clock artistIdList
    (buildGenresArtistPhase client clock artistIdList
      (buildGenresAfterPreload preloaded))

-- ─── C8: time-budget guards of the genre phase ───────────────────

lemma genreArtistLoop_events (client : GenreClient) (clock : ℕ → ℕ) :
    ∀ (ids : List String) (k : ℕ) (st : GenresState) (evs : List GenreEvent),
      ∀ e ∈ (genreArtistLoop client clock ids k st evs).2.2,
        e ∈ evs ∨ ∃ t id, e = GenreEvent.artistLookup t id ∧ t ≤ 45000 := by
  intro ids
  induction ids with
  | nil =>
    intro k st evs e he
    exact Or.inl he
  | cons id rest ih =>
    intro k st evs e he
    simp only [genreArtistLoop] at he
    by_cases hg : (50000 : ℤ) - clock k < 5000
    · rw [if_pos hg] at he
      exact Or.inl he
    · rw [if_neg hg] at he
      have hb : clock k ≤ 45000 := by omega
      cases harr : client.getArtist id with
      | ok artist =>
        rw [harr] at he
        rcases ih (k + 1) _ _ e he with hin | hnew
        · rcases List.mem_append.1 hin with h1 | h1
          · exact Or.inl h1
          · exact Or.inr ⟨clock k, id, by simpa using h1, hb⟩
        · exact Or.inr hnew
      | error err =>
        rw [harr] at he
        cases err with
        | longCooldown =>
          rcases List.mem_append.1 he with h1 | h1
          · exact Or.inl h1
          · exact Or.inr ⟨clock k, id, by simpa using h1, hb⟩
        | other =>
          rcases ih (k + 1) _ _ e he with hin | hnew
          · rcases List.mem_append.1 hin with h1 | h1
            · exact Or.inl h1
            · exact Or.inr ⟨clock k, id, by simpa using h1, hb⟩
          · exact Or.inr hnew

lemma genreProbeLoop_events (client : GenreClient) (clock : ℕ → ℕ)
    (artistIds : Finset String) :
    ∀ (gs : List String) (k : ℕ) (st : GenresState) (evs : List GenreEvent),
      ∀ e ∈ (genreProbeLoop client clock artistIds gs k st evs).2.2,
        e ∈ evs ∨ ∃ t g, e = GenreEvent.probe t g ∧ t ≤ 47000 := by
  intro gs
  induction gs with
  | nil =>
    intro k st evs e he
    exact Or.inl he
  | cons genre rest ih =>
    intro k st evs e he
    simp only [genreProbeLoop] at he
    by_cases hg : (50000 : ℤ) - clock k < 3000
    · rw [if_pos hg] at he
      exact Or.inl he
    · rw [if_neg hg] at he
      have hb : clock k ≤ 47000 := by omega
      cases harr : client.search genre with
      | ok tracks =>
        rw [harr] at he
        rcases ih (k + 1) _ _ e he with hin | hnew
        · rcases List.mem_append.1 hin with h1 | h1
          · exact Or.inl h1
          · exact Or.inr ⟨clock k, genre, by simpa using h1, hb⟩
        · exact Or.inr hnew
      | error err =>
        rw [harr] at he
        cases err with
        | longCooldown =>
          rcases List.mem_append.1 he with h1 | h1
          · exact Or.inl h1
          · exact Or.inr ⟨clock k, genre, by simpa using h1, hb⟩
        | other =>
          rcases ih (k + 1) _ _ e he with hin | hnew
          · rcases List.mem_append.1 hin with h1 | h1
            · exact Or.inl h1
            · exact Or.inr ⟨clock k, genre, by simpa using h1, hb⟩
          · exact Or.inr hnew

lemma buildGenresArtistPhase_events (client : GenreClient) (clock : ℕ → ℕ)
    (ids : List String) (st1 : GenresState) :
    ∀ e ∈ (buildGenresArtistPhase client clock ids st1).2.2,
      ∃ t id, e = GenreEvent.artistLookup t id ∧ t ≤ 45000 := by
  intro e he
  unfold buildGenresArtistPhase at he
  by_cases h1 : st1.knownGenres = ∅
  · rw [if_pos h1] at he
    by_cases h2 : (50000 : ℤ) - clock 0 > 20000
    · rw [if_pos h2] at he
      rcases genreArtistLoop_events client clock _ _ _ _ e he with h | h
      · exact absurd h (List.not_mem_nil e)
      · exact h
    · rw [if_neg h2] at he
      exact absurd he (List.not_mem_nil e)
  · rw [if_neg h1] at he
    exact absurd he (List.not_mem_nil e)

lemma buildGenresProbePhase_events (client : GenreClient) (clock : ℕ → ℕ)
    (ids : List String) (x : GenresState × ℕ × List GenreEvent) :
    ∀ e ∈ (buildGenresProbePhase client clock ids x).2,
      e ∈ x.2.2 ∨ ∃ t g, e = GenreEvent.probe t g ∧ t ≤ 47000 := by
  intro e he
  unfold buildGenresProbePhase at he
  by_cases h1 : (PROBE_GENRES.filter (fun g => g ∉ x.1.knownGenres)) ≠ [] ∧
      ids.toFinset ≠ ∅
  · rw [if_pos h1] at he
    by_cases h2 : (50000 : ℤ) - clock x.2.1 > 5000
    · rw [if_pos h2] at he
      exact genreProbeLoop_events client clock _ _ _ _ _ e he
    · rw [if_neg h2] at he
      exact Or.inl he
  · rw [if_neg h1] at he
    exact Or.inl he

/-- C8 (amended). The genre phase's budget guards: an artist lookup only
starts when the elapsed time read by its guard is at most
`50s - 5s = 45s`; a genre search probe only starts when the elapsed time
read by its guard is at most `50s - 3s = 47s` (the probe loop's per-probe
margin is 3s, not 5s; only the loop *entry* uses the 5s margin). When a
margin is hit the phase stops issuing requests and still returns its
accumulated state (the embedding is a total function). -/
theorem c8_genre_time_budget (client : GenreClient) (clock : ℕ → ℕ)
    (artistIdList : List String)
    (preloaded : Option (List PreloadedArtistGenres)) :
    (∀ t id, GenreEvent.artistLookup t id ∈
        (buildGenres client clock artistIdList preloaded).2 → t ≤ 45000) ∧
    (∀ t g, GenreEvent.probe t g ∈
        (buildGenres client clock artistIdList preloaded).2 → t ≤ 47000) := by
  constructor
  · intro t id he
    rcases buildGenresProbePhase_events client clock artistIdList _ _ he with h | h
    · obtain ⟨t2, id2, heq, hb⟩ :=
        buildGenresArtistPhase_events client clock artistIdList _ _ h
      injection heq with h1 h2
      omega
    · obtain ⟨t2, g2, heq, _⟩ := h
      exact GenreEvent.noConfusion heq
  · intro t g he
    rcases buildGenresProbePhase_events client clock artistIdList _ _ he with h | h
    · obtain ⟨t2, id2, heq, _⟩ :=
        buildGenresArtistPhase_events client clock artistIdList _ _ h
      exact GenreEvent.noConfusion heq
    · obtain ⟨t2, g2, heq, hb⟩ := h
      injection heq with h1 h2
      omega

/-- C8 counterexample: a run in which a probe request starts at elapsed 46s
(4s of budget left — above the probe loop's 3s margin but past the claimed
5s margin), refuting "no request starts after 50s - 5s". -/
theorem c8_genre_time_budget_counterexample :
    ¬ (∀ e ∈ (buildGenres
        ⟨fun _ => .ok ⟨"A", []⟩, fun _ => .ok []⟩
        (fun n => if n = 0 then 0 else if n = 1 then 1000
          else if n = 2 then 30000 else 46000)
        ["a1"] none).2, GenreEvent.elapsed e ≤ 45000) := by
  intro h
  exact absurd (h (GenreEvent.probe 46000 "rock") (by decide)) (by decide)

/-- C8 witness: the amended bounds applied to a concrete run containing an
artist lookup at elapsed 1s and a probe at elapsed 46s. -/
theorem c8_genre_time_budget_witness :
    GenreEvent.probe 46000 "rock" ∈ (buildGenres
        ⟨fun _ => .ok ⟨"A", []⟩, fun _ => .ok []⟩
        (fun n => if n = 0 then 0 else if n = 1 then 1000
          else if n = 2 then 30000 else 46000)
        ["a1"] none).2 ∧
    (46000 : ℕ) ≤ 47000 ∧ (1000 : ℕ) ≤ 45000 := by
  refine ⟨by decide, ?_, ?_⟩
  · exact (c8_genre_time_budget
      ⟨fun _ => .ok ⟨"A", []⟩, fun _ => .ok []⟩
      (fun n => if n = 0 then 0 else if n = 1 then 1000
        else if n = 2 then 30000 else 46000)
      ["a1"] none).2 46000 "rock" (by decide)
  · exact (c8_genre_time_budget
      ⟨fun _ => .ok ⟨"A", []⟩, fun _ => .ok []⟩
      (fun n => if n = 0 then 0 else if n = 1 then 1000
        else if n = 2 then 30000 else 46000)
      ["a1"] none).1 1000 "a1" (by decide)

-- ─── C7: genre-frequency per observation ─────────────────────────

/-- Number of observations of genre `g` in one artist's genre list. -/
def genreObsCount (g : String) (genres : List String) : ℕ :=
  (genres.filter (fun x => x = g)).length

lemma genreObsCount_cons (g gh : String) (rest : List String) :
    genreObsCount g (gh :: rest) =
      (if gh = g then 1 else 0) + genreObsCount g rest := by
  unfold genreObsCount
  rw [List.filter_cons]
  by_cases h : gh = g
  · simp [h]
    omega
  · simp [h]

lemma genreFold_freq (genres : List String) (name : String) :
    ∀ (st : GenresState) (g : String),
      ((genres.foldl (fun s2 g2 => addGenre s2 g2 name) st).genreFrequency g) =
        st.genreFrequency g + genreObsCount g genres := by
  induction genres with
  | nil => intro st g; simp [genreObsCount]
  | cons gh rest ih =>
    intro st g
    simp only [List.foldl_cons]
    rw [ih, genreObsCount_cons]
    by_cases hq : g = gh
    · subst hq
      have hstep : (addGenre st g name).genreFrequency g = st.genreFrequency g + 1 := by
        unfold addGenre
        dsimp only
        rw [if_pos rfl]
      rw [hstep, if_pos rfl]
      omega
    · have hstep : (addGenre st gh name).genreFrequency g = st.genreFrequency g := by
        unfold addGenre
        dsimp only
        rw [if_neg hq]
      rw [hstep, if_neg (fun hh => hq hh.symm)]
      omega

lemma preloadGenres_freq (l : List PreloadedArtistGenres) :
    ∀ (st : GenresState) (g : String),
      (preloadGenres l st).genreFrequency g =
        st.genreFrequency g + (l.map (fun pre => genreObsCount g pre.genres)).sum := by
  induction l with
  | nil => intro st g; simp [preloadGenres]
  | cons pre rest ih =>
    intro st g
    unfold preloadGenres at ih ⊢
    simp only [List.foldl_cons, List.map_cons, List.sum_cons]
    rw [ih, genreFold_freq]
    omega

lemma listInsertSet_nodup (x : String) (l : List String) (h : l.Nodup) :
    (listInsertSet x l).Nodup := by
  unfold listInsertSet
  split
  · exact h
  · next hx => simp [List.nodup_append, h, hx]

lemma addGenre_artists_nodup (st : GenresState) (g n : String)
    (h : ∀ g2, (st.genreArtists g2).Nodup) :
    ∀ g2, ((addGenre st g n).genreArtists g2).Nodup := by
  intro g2
  unfold addGenre
  dsimp only
  split
  · exact listInsertSet_nodup _ _ (h g2)
  · exact h g2

lemma genreFold_artists_nodup (genres : List String) (name : String) :
    ∀ (st : GenresState), (∀ g2, (st.genreArtists g2).Nodup) →
      ∀ g2, ((genres.foldl (fun s2 g2 => addGenre s2 g2 name) st).genreArtists g2).Nodup := by
  induction genres with
  | nil => intro st h; exact h
  | cons gh rest ih =>
    intro st h
    simp only [List.foldl_cons]
    exact ih _ (addGenre_artists_nodup st gh name h)

lemma preloadGenres_artists_nodup (l : List PreloadedArtistGenres) :
    ∀ (st : GenresState), (∀ g2, (st.genreArtists g2).Nodup) →
      ∀ g2, ((preloadGenres l st).genreArtists g2).Nodup := by
  induction l with
  | nil => intro st h; exact h
  | cons pre rest ih =>
    intro st h
    unfold preloadGenres at ih ⊢
    simp only [List.foldl_cons]
    exact ih _ (genreFold_artists_nodup pre.genres pre.artistName st h)

lemma buildGenres_noArtists_state (client : GenreClient) (clock : ℕ → ℕ)
    (pre : Option (List PreloadedArtistGenres)) :
    (buildGenres client clock [] pre).1 = buildGenresAfterPreload pre := by
  unfold buildGenres
  have hprobe : ∀ x : GenresState × ℕ × List GenreEvent,
      (buildGenresProbePhase client clock [] x).1 = x.1 := by
    intro x
    unfold buildGenresProbePhase
    rw [if_neg (fun hc => hc.2 rfl)]
  rw [hprobe]
  unfold buildGenresArtistPhase
  split
  · split <;> rfl
  · rfl

/-- C7 (amended). The genre-frequency counter is incremented once per
(artist, genre) *observation*, with no per-pair deduplication: in a
preloaded-genres run the counter for `g` equals the total number of
occurrences of `g` across the preloaded artists' genre lists — an artist
tagged with 3 genres contributes 1 to each of the 3 counters, but the same
artist observed again for the same genre increments that counter again.
Only the `genreArtists` name set deduplicates (it stays duplicate-free). -/
theorem c7_genre_frequency_per_observation (client : GenreClient)
    (clock : ℕ → ℕ) (l : List PreloadedArtistGenres) :
    (∀ g, (buildGenres client clock [] (some l)).1.genreFrequency g =
      (l.map (fun pre => genreObsCount g pre.genres)).sum) ∧
    (∀ g, ((buildGenres client clock [] (some l)).1.genreArtists g).Nodup) := by
  rw [buildGenres_noArtists_state]
  unfold buildGenresAfterPreload
  dsimp only
  by_cases hl : l.isEmpty
  · rw [if_pos hl]
    have hnil : l = [] := List.isEmpty_iff.1 hl
    subst hnil
    exact ⟨fun g => rfl, fun g => List.nodup_nil⟩
  · rw [if_neg hl]
    constructor
    · intro g
      rw [preloadGenres_freq]
      simp [emptyGenresState]
    · intro g
      exact preloadGenres_artists_nodup l emptyGenresState (fun _ => List.nodup_nil) g

/-- C7 counterexample: the same artist observed twice for the same genre in
one genre-phase run drives that genre's frequency counter to 2, refuting
"does not increment that genre's counter more than once". -/
theorem c7_genre_frequency_counterexample :
    (buildGenres ⟨fun _ => .ok ⟨"X", []⟩, fun _ => .ok []⟩ (fun _ => 0) []
      (some [⟨"A", ["rock"]⟩, ⟨"A", ["rock"]⟩])).1.genreFrequency "rock" = 2 ∧
    ¬ ((buildGenres ⟨fun _ => .ok ⟨"X", []⟩, fun _ => .ok []⟩ (fun _ => 0) []
      (some [⟨"A", ["rock"]⟩, ⟨"A", ["rock"]⟩])).1.genreFrequency "rock" ≤ 1) := by
  constructor <;> decide

-- ─── Mainstream-overlap scan (heard-profile.ts 815-900) ──────────

/-- One genre's entry in the mainstream analysis (the `url` of an unheard
example is not modelled; an example keeps `(name, joined artist names)`). -/
structure MainstreamGenreResult where
  genre : String
  searchedTracks : ℕ
  heardTracks : ℕ
  knownArtistTracks : ℕ
  overlapPercent : ℤ
  unheardExamples : List (String × String)
deriving DecidableEq

/-- The mainstream analysis result (`buildTime` not modelled). -/
structure MainstreamResult where
  overallScore : ℤ
  label : String
  genres : List MainstreamGenreResult
  totalSearched : ℕ
  totalOverlap : ℕ
deriving DecidableEq

/-- JS `Math.round(num / den)` for a positive denominator, in executable
integer form: `⌊num/den + 1/2⌋ = (2*num + den) / (2*den)` (the `/` on ℤ
agreeing with the floor for a positive divisor). -/
def jsRoundRatio (num : ℤ) (den : ℕ) : ℤ :=
  (2 * num + den) / (2 * den : ℤ)

lemma jsRoundRatio_eq_round (num : ℤ) (den : ℕ) (hden : 0 < den) :
    jsRoundRatio num den = round ((num : ℚ) / (den : ℚ)) := by
  have hcast : ((2 * den : ℕ) : ℤ) = 2 * (den : ℤ) := by push_cast; ring
  rw [round_eq]
  unfold jsRoundRatio
  rw [← hcast, ← Rat.floor_intCast_div_natCast (2 * num + den) (2 * den)]
  congr 1
  have h : ((den : ℚ)) ≠ 0 := Nat.cast_ne_zero.mpr hden.ne'
  push_cast
  field_simp
  ring

/-- One genre's scan: heard tracks get full credit, unheard tracks by a
known artist half credit; `overlapPercent =
Math.round((heard + 0.5*knownArtist) / tracks.length * 100)` (0 when no
tracks came back), computed as the exact integer rounding of
`(100*heard + 50*knownArtist) / length`. -/
def mkGenreResult (heardTracks heardArtists : Finset String)
    (genre : String) (tracks : List Track) : MainstreamGenreResult :=
  let heardCount := (tracks.filter (fun t => t.id ∈ heardTracks)).length
  let knownArtistCount := (tracks.filter (fun t =>
    t.artists.any (fun a => a.id ∈ heardArtists) ∧ t.id ∉ heardTracks)).length
  ⟨genre, tracks.length, heardCount, knownArtistCount,
    if 0 < tracks.length then
      jsRoundRatio (100 * (heardCount : ℤ) + 50 * (knownArtistCount : ℤ))
        tracks.length
    else 0,
    ((tracks.filter (fun t => t.id ∉ heardTracks ∧
        ¬ t.artists.any (fun a => a.id ∈ heardArtists))).take 3).map
      (fun t => (t.name, String.intercalate ", " (t.artists.map (fun a => a.name))))⟩

/-- The per-genre loop of `buildMainstreamAnalysis`: a failed search
(`none`) is caught and the genre skipped; otherwise the entry is appended
and `totalSearched`/`totalOverlap` accumulate. -/
def mainstreamScan (search : String → Option (List Track))
    (heardTracks heardArtists : Finset String) :
    List String → List MainstreamGenreResult × ℕ × ℕ
  | [] => ([], 0, 0)
  | g :: rest =>
    match search g with
    | none => mainstreamScan search heardTracks heardArtists rest
    | some tracks =>
      ((mkGenreResult heardTracks heardArtists g tracks) ::
          (mainstreamScan search heardTracks heardArtists rest).1,
        (mainstreamScan search heardTracks heardArtists rest).2.1 + tracks.length,
        (mainstreamScan search heardTracks heardArtists rest).2.2 +
          (mkGenreResult heardTracks heardArtists g tracks).heardTracks)

/-- Stable insertion into a list sorted by `overlapPercent` descending: the
inserted (earlier) element goes before later elements with an equal key,
matching a stable sort with comparator `b.overlapPercent - a.overlapPercent`. -/
def insertByOverlapDesc (x : MainstreamGenreResult) :
    List MainstreamGenreResult → List MainstreamGenreResult
  | [] => [x]
  | y :: ys =>
    if y.overlapPercent ≤ x.overlapPercent then x :: y :: ys
    else y :: insertByOverlapDesc x ys

/-- The stable sort `results.sort((a, b) => b.overlapPercent - a.overlapPercent)`. -/
def sortByOverlapDesc : List MainstreamGenreResult → List MainstreamGenreResult
  | [] => []
  | x :: xs => insertByOverlapDesc x (sortByOverlapDesc xs)

/-- `buildMainstreamAnalysis` (heard-profile.ts 815-900): scan the first 8
genres (`search` abstracts `client.search('genre:"<g>"', 'track', 10)`,
`none` a thrown search), weight each genre's `overlapPercent` by its
`searchedTracks` for the overall score, pick the tier label, and sort
entries by `overlapPercent` descending (JS sort is stable). -/
def buildMainstreamAnalysis (search : String → Option (List Track))
    (genres heardTrackIds heardArtistIds : List String) : MainstreamResult :=
  let scan := mainstreamScan search heardTrackIds.toFinset
    heardArtistIds.toFinset (genres.take 8)
  let weightedSum : ℤ :=
    (scan.1.map (fun r => r.overlapPercent * (r.searchedTracks : ℤ))).sum
  let weightedTotal : ℕ := (scan.1.map (fun r => r.searchedTracks)).sum
  let overallScore : ℤ :=
    if 0 < weightedTotal then jsRoundRatio weightedSum weightedTotal else 0
  ⟨overallScore,
    if 70 ≤ overallScore then "Chart Chaser"
    else if 55 ≤ overallScore then "Crowd Favorite"
    else if 40 ≤ overallScore then "Balanced Palette"
    else if 25 ≤ overallScore then "Crate Digger"
    else "Deep Underground",
    sortByOverlapDesc scan.1,
    scan.2.1, scan.2.2⟩

lemma insertByOverlapDesc_perm (x : MainstreamGenreResult)
    (l : List MainstreamGenreResult) :
    (insertByOverlapDesc x l).Perm (x :: l) := by
  induction l with
  | nil => exact List.Perm.refl _
  | cons y ys ih =>
    unfold insertByOverlapDesc
    split
    · exact List.Perm.refl _
    · exact (List.Perm.cons y ih).trans (List.Perm.swap x y ys)

lemma sortByOverlapDesc_perm (l : List MainstreamGenreResult) :
    (sortByOverlapDesc l).Perm l := by
  induction l with
  | nil => exact List.Perm.refl _
  | cons x xs ih =>
    exact (insertByOverlapDesc_perm x (sortByOverlapDesc xs)).trans
      (List.Perm.cons x ih)

lemma mainstreamScan_mem (search : String → Option (List Track))
    (hT hA : Finset String) :
    ∀ (gs : List String), ∀ e ∈ (mainstreamScan search hT hA gs).1,
      ∃ g, g ∈ gs ∧ ∃ tracks, search g = some tracks ∧
        e = mkGenreResult hT hA g tracks := by
  intro gs
  induction gs with
  | nil =>
    intro e he
    exact absurd he (List.not_mem_nil e)
  | cons g rest ih =>
    intro e he
    simp only [mainstreamScan] at he
    cases hs : search g with
    | none =>
      rw [hs] at he
      obtain ⟨g2, hg2, tr, htr, he2⟩ := ih e he
      exact ⟨g2, List.mem_cons_of_mem g hg2, tr, htr, he2⟩
    | some tracks =>
      rw [hs] at he
      rcases List.mem_cons.1 he with h1 | h1
      · exact ⟨g, List.mem_cons_self g rest, tracks, hs, h1⟩
      · obtain ⟨g2, hg2, tr, htr, he2⟩ := ih e h1
        exact ⟨g2, List.mem_cons_of_mem g hg2, tr, htr, he2⟩

lemma mainstreamScan_length (search : String → Option (List Track))
    (hT hA : Finset String) :
    ∀ (gs : List String),
      (mainstreamScan search hT hA gs).1.length ≤ gs.length := by
  intro gs
  induction gs with
  | nil => simp [mainstreamScan]
  | cons g rest ih =>
    simp only [mainstreamScan]
    cases hs : search g with
    | none => simpa using Nat.le_succ_of_le ih
    | some tracks => simpa using ih

/-- C3. Mainstream overlap: every entry comes from one of the first 8
genres whose search succeeded; its `overlapPercent` is
`round(100 * (heard + 0.5*knownArtist) / searched)` (0 when no tracks came
back), with `heard` counting searched tracks in the heard set and
`knownArtist` counting unheard tracks by a known artist; the overall score
is the `searchedTracks`-weighted average of the per-genre percentages,
rounded; and the tier label follows the 70/55/40/25 thresholds. -/
theorem c3_mainstream_overlap (search : String → Option (List Track))
    (genres heardTrackIds heardArtistIds : List String) :
    (∀ e ∈ (buildMainstreamAnalysis search genres heardTrackIds heardArtistIds).genres,
      e.genre ∈ genres.take 8 ∧
      ∃ tracks, search e.genre = some tracks ∧
        e.searchedTracks = tracks.length ∧
        e.heardTracks =
          (tracks.filter (fun t => t.id ∈ heardTrackIds.toFinset)).length ∧
        e.knownArtistTracks = (tracks.filter (fun t =>
          t.artists.any (fun a => a.id ∈ heardArtistIds.toFinset) ∧
            t.id ∉ heardTrackIds.toFinset)).length ∧
        e.overlapPercent = (if 0 < tracks.length then
          round ((100 : ℚ) * ((e.heardTracks : ℚ) +
            (1/2 : ℚ) * (e.knownArtistTracks : ℚ)) / (tracks.length : ℚ))
          else 0)) ∧
    (buildMainstreamAnalysis search genres heardTrackIds heardArtistIds).genres.length ≤ 8 ∧
    (buildMainstreamAnalysis search genres heardTrackIds heardArtistIds).overallScore =
      (if 0 < ((buildMainstreamAnalysis search genres heardTrackIds
          heardArtistIds).genres.map (fun e => e.searchedTracks)).sum then
        round ((((buildMainstreamAnalysis search genres heardTrackIds
            heardArtistIds).genres.map
            (fun e => e.overlapPercent * (e.searchedTracks : ℤ))).sum : ℚ) /
          ((((buildMainstreamAnalysis search genres heardTrackIds
            heardArtistIds).genres.map (fun e => e.searchedTracks)).sum : ℕ) : ℚ))
      else 0) ∧
    (buildMainstreamAnalysis search genres heardTrackIds heardArtistIds).label =
      (if 70 ≤ (buildMainstreamAnalysis search genres heardTrackIds
          heardArtistIds).overallScore then "Chart Chaser"
      else if 55 ≤ (buildMainstreamAnalysis search genres heardTrackIds
          heardArtistIds).overallScore then "Crowd Favorite"
      else if 40 ≤ (buildMainstreamAnalysis search genres heardTrackIds
          heardArtistIds).overallScore then "Balanced Palette"
      else if 25 ≤ (buildMainstreamAnalysis search genres heardTrackIds
          heardArtistIds).overallScore then "Crate Digger"
      else "Deep Underground") := by
  have hperm := sortByOverlapDesc_perm
    (mainstreamScan search heardTrackIds.toFinset heardArtistIds.toFinset
      (genres.take 8)).1
  have hgenres : (buildMainstreamAnalysis search genres heardTrackIds
      heardArtistIds).genres =
      sortByOverlapDesc (mainstreamScan search heardTrackIds.toFinset
        heardArtistIds.toFinset (genres.take 8)).1 := rfl
  refine ⟨?_, ?_, ?_, rfl⟩
  · intro e he
    rw [hgenres] at he
    obtain ⟨g, hg, tracks, hs, he2⟩ := mainstreamScan_mem search
      heardTrackIds.toFinset heardArtistIds.toFinset (genres.take 8) e
      (hperm.mem_iff.1 he)
    subst he2
    refine ⟨hg, tracks, hs, rfl, rfl, rfl, ?_⟩
    have hh : (mkGenreResult heardTrackIds.toFinset heardArtistIds.toFinset
        g tracks).heardTracks =
        (tracks.filter (fun t => t.id ∈ heardTrackIds.toFinset)).length := rfl
    have hk : (mkGenreResult heardTrackIds.toFinset heardArtistIds.toFinset
        g tracks).knownArtistTracks =
        (tracks.filter (fun t =>
          t.artists.any (fun a => a.id ∈ heardArtistIds.toFinset) ∧
            t.id ∉ heardTrackIds.toFinset)).length := rfl
    rw [hh, hk]
    show (if 0 < tracks.length then
        jsRoundRatio
          (100 * ((tracks.filter (fun t => t.id ∈ heardTrackIds.toFinset)).length : ℤ) +
            50 * ((tracks.filter (fun t =>
              t.artists.any (fun a => a.id ∈ heardArtistIds.toFinset) ∧
                t.id ∉ heardTrackIds.toFinset)).length : ℤ))
          tracks.length
      else 0) = _
    by_cases hl : 0 < tracks.length
    · rw [if_pos hl, if_pos hl, jsRoundRatio_eq_round _ _ hl]
      congr 1
      push_cast
      ring
    · rw [if_neg hl, if_neg hl]
  · rw [hgenres, hperm.length_eq]
    calc (mainstreamScan search heardTrackIds.toFinset heardArtistIds.toFinset
        (genres.take 8)).1.length ≤ (genres.take 8).length :=
          mainstreamScan_length search heardTrackIds.toFinset
            heardArtistIds.toFinset (genres.take 8)
      _ ≤ 8 := List.length_take_le 8 genres
  · have h1 : ((buildMainstreamAnalysis search genres heardTrackIds
        heardArtistIds).genres.map (fun e => e.searchedTracks)).sum =
        ((mainstreamScan search heardTrackIds.toFinset heardArtistIds.toFinset
          (genres.take 8)).1.map (fun e => e.searchedTracks)).sum := by
      rw [hgenres]
      exact (hperm.map (fun e => e.searchedTracks)).sum_eq
    have h2 : ((buildMainstreamAnalysis search genres heardTrackIds
        heardArtistIds).genres.map
        (fun e => e.overlapPercent * (e.searchedTracks : ℤ))).sum =
        ((mainstreamScan search heardTrackIds.toFinset heardArtistIds.toFinset
          (genres.take 8)).1.map
          (fun e => e.overlapPercent * (e.searchedTracks : ℤ))).sum := by
      rw [hgenres]
      exact (hperm.map (fun e => e.overlapPercent * (e.searchedTracks : ℤ))).sum_eq
    have hscore : (buildMainstreamAnalysis search genres heardTrackIds
        heardArtistIds).overallScore =
        (if 0 < ((mainstreamScan search heardTrackIds.toFinset
            heardArtistIds.toFinset (genres.take 8)).1.map
            (fun e => e.searchedTracks)).sum then
          jsRoundRatio
            ((mainstreamScan search heardTrackIds.toFinset heardArtistIds.toFinset
              (genres.take 8)).1.map
              (fun e => e.overlapPercent * (e.searchedTracks : ℤ))).sum
            ((mainstreamScan search heardTrackIds.toFinset heardArtistIds.toFinset
              (genres.take 8)).1.map (fun e => e.searchedTracks)).sum
        else 0) := rfl
    rw [h1, h2, hscore]
    by_cases hwt : 0 < ((mainstreamScan search heardTrackIds.toFinset
        heardArtistIds.toFinset (genres.take 8)).1.map
        (fun e => e.searchedTracks)).sum
    · rw [if_pos hwt, if_pos hwt, jsRoundRatio_eq_round _ _ hwt]
    · rw [if_neg hwt, if_neg hwt]

/-- C3 witness: a 10-track genre search with 4 heard tracks and 2 more by a
known artist gives `overlapPercent = round(100 * (4 + 0.5*2) / 10) = 50`,
overall score 50 and label "Balanced Palette". -/
theorem c3_mainstream_overlap_witness :
    (⟨"g", 10, 4, 2, 50, [("n", "un"), ("n", "un"), ("n", "un")]⟩ :
        MainstreamGenreResult) ∈
      (buildMainstreamAnalysis
        (fun g => if g = "g" then some
          [⟨"x1", "n", [⟨"ua", "un"⟩], none, none, none, false⟩,
           ⟨"x2", "n", [⟨"ua", "un"⟩], none, none, none, false⟩,
           ⟨"x3", "n", [⟨"ua", "un"⟩], none, none, none, false⟩,
           ⟨"x4", "n", [⟨"ua", "un"⟩], none, none, none, false⟩,
           ⟨"x5", "n", [⟨"ka", "kn"⟩], none, none, none, false⟩,
           ⟨"x6", "n", [⟨"ka", "kn"⟩], none, none, none, false⟩,
           ⟨"x7", "n", [⟨"ua", "un"⟩], none, none, none, false⟩,
           ⟨"x8", "n", [⟨"ua", "un"⟩], none, none, none, false⟩,
           ⟨"x9", "n", [⟨"ua", "un"⟩], none, none, none, false⟩,
           ⟨"x10", "n", [⟨"ua", "un"⟩], none, none, none, false⟩] else none)
        ["g"] ["x1", "x2", "x3", "x4"] ["ka"]).genres ∧
    (⟨"g", 10, 4, 2, 50, [("n", "un"), ("n", "un"), ("n", "un")]⟩ :
        MainstreamGenreResult).genre ∈ (["g"].take 8) ∧
    (buildMainstreamAnalysis
        (fun g => if g = "g" then some
          [⟨"x1", "n", [⟨"ua", "un"⟩], none, none, none, false⟩,
           ⟨"x2", "n", [⟨"ua", "un"⟩], none, none, none, false⟩,
           ⟨"x3", "n", [⟨"ua", "un"⟩], none, none, none, false⟩,
           ⟨"x4", "n", [⟨"ua", "un"⟩], none, none, none, false⟩,
           ⟨"x5", "n", [⟨"ka", "kn"⟩], none, none, none, false⟩,
           ⟨"x6", "n", [⟨"ka", "kn"⟩], none, none, none, false⟩,
           ⟨"x7", "n", [⟨"ua", "un"⟩], none, none, none, false⟩,
           ⟨"x8", "n", [⟨"ua", "un"⟩], none, none, none, false⟩,
           ⟨"x9", "n", [⟨"ua", "un"⟩], none, none, none, false⟩,
           ⟨"x10", "n", [⟨"ua", "un"⟩], none, none, none, false⟩] else none)
        ["g"] ["x1", "x2", "x3", "x4"] ["ka"]).overallScore = 50 ∧
    (buildMainstreamAnalysis
        (fun g => if g = "g" then some
          [⟨"x1", "n", [⟨"ua", "un"⟩], none, none, none, false⟩,
           ⟨"x2", "n", [⟨"ua", "un"⟩], none, none, none, false⟩,
           ⟨"x3", "n", [⟨"ua", "un"⟩], none, none, none, false⟩,
           ⟨"x4", "n", [⟨"ua", "un"⟩], none, none, none, false⟩,
           ⟨"x5", "n", [⟨"ka", "kn"⟩], none, none, none, false⟩,
           ⟨"x6", "n", [⟨"ka", "kn"⟩], none, none, none, false⟩,
           ⟨"x7", "n", [⟨"ua", "un"⟩], none, none, none, false⟩,
           ⟨"x8", "n", [⟨"ua", "un"⟩], none, none, none, false⟩,
           ⟨"x9", "n", [⟨"ua", "un"⟩], none, none, none, false⟩,
           ⟨"x10", "n", [⟨"ua", "un"⟩], none, none, none, false⟩] else none)
        ["g"] ["x1", "x2", "x3", "x4"] ["ka"]).label = "Balanced Palette" := by
  refine ⟨by decide, ?_, ?_, by decide⟩
  · exact ((c3_mainstream_overlap
      (fun g => if g = "g" then some
        [⟨"x1", "n", [⟨"ua", "un"⟩], none, none, none, false⟩,
         ⟨"x2", "n", [⟨"ua", "un"⟩], none, none, none, false⟩,
         ⟨"x3", "n", [⟨"ua", "un"⟩], none, none, none, false⟩,
         ⟨"x4", "n", [⟨"ua", "un"⟩], none, none, none, false⟩,
         ⟨"x5", "n", [⟨"ka", "kn"⟩], none, none, none, false⟩,
         ⟨"x6", "n", [⟨"ka", "kn"⟩], none, none, none, false⟩,
         ⟨"x7", "n", [⟨"ua", "un"⟩], none, none, none, false⟩,
         ⟨"x8", "n", [⟨"ua", "un"⟩], none, none, none, false⟩,
         ⟨"x9", "n", [⟨"ua", "un"⟩], none, none, none, false⟩,
         ⟨"x10", "n", [⟨"ua", "un"⟩], none, none, none, false⟩] else none)
      ["g"] ["x1", "x2", "x3", "x4"] ["ka"]).1
      ⟨"g", 10, 4, 2, 50, [("n", "un"), ("n", "un"), ("n", "un")]⟩
      (by decide)).1
  · decide

-- ─── Explorer score (profile-analysis.ts 167-203) ────────────────

/-- `computeExplorerScore` (profile-analysis.ts 167-203) over the list of
genre-frequency counts (`genreFrequency.values()`; its `.size` is the list
length). Real arithmetic idealizes the JS floats. Zero total → score 0; at
most one genre → score 5 (entropy never computed, so no NaN); otherwise
Shannon entropy (skipping `p = 0` terms, as the code's `if (p > 0)` does),
evenness against `log2(genreCount)`, breadth `min(genreCount/30, 1)`,
`score = Math.round(Math.min(100, Math.max(0, raw)))`, and the tier label. -/
noncomputable def computeExplorerScore (freqs : List ℕ) : ℤ × String :=
  let total := freqs.sum
  if total = 0 then (0, "No data yet")
  else
    let genreCount := freqs.length
    if genreCount ≤ 1 then (5, "Laser-Focused")
    else
      let entropy : ℝ := -(freqs.map (fun (c : ℕ) =>
        if 0 < ((c : ℝ) / (total : ℝ)) then
          ((c : ℝ) / (total : ℝ)) * Real.logb 2 ((c : ℝ) / (total : ℝ))
        else 0)).sum
      let maxEntropy : ℝ := Real.logb 2 (genreCount : ℝ)
      let evenness : ℝ := if 0 < maxEntropy then entropy / maxEntropy else 0
      let genreBreadth : ℝ := min ((genreCount : ℝ) / 30) 1
      let raw : ℝ := (evenness * 0.6 + genreBreadth * 0.4) * 100
      let score : ℤ := round (min (100 : ℝ) (max 0 raw))
      (score,
        if 80 ≤ score then "Sonic Nomad"
        else if 65 ≤ score then "Adventurous Ear"
        else if 45 ≤ score then "Curious Listener"
        else if 25 ≤ score then "Comfort Cruiser"
        else "Deep Specialist")

/-- Claim-side Shannon entropy `H = -Σ p·log2(p)` of the genre-frequency
distribution, without the `p > 0` guard (`0 * log2 0 = 0` in ℝ). -/
noncomputable def specShannonEntropy (freqs : List ℕ) : ℝ :=
  -(freqs.map (fun (c : ℕ) =>
    ((c : ℝ) / (freqs.sum : ℝ)) * Real.logb 2 ((c : ℝ) / (freqs.sum : ℝ)))).sum

/-- Claim-side clamp to `[0, 1]`. -/
noncomputable def clampUnit (x : ℝ) : ℝ := max 0 (min 1 x)

/-- Claim-side label thresholds. -/
def explorerLabel (score : ℤ) : String :=
  if 80 ≤ score then "Sonic Nomad"
  else if 65 ≤ score then "Adventurous Ear"
  else if 45 ≤ score then "Curious Listener"
  else if 25 ≤ score then "Comfort Cruiser"
  else "Deep Specialist"

lemma clamp_scale (v : ℝ) : min (100 : ℝ) (max 0 (v * 100)) = 100 * clampUnit v := by
  unfold clampUnit
  rcases le_total v 0 with h | h
  · rw [min_eq_right (le_trans h (by norm_num)), max_eq_left h,
      max_eq_left (by nlinarith : v * 100 ≤ 0), mul_zero,
      min_eq_right (by norm_num : (0 : ℝ) ≤ 100)]
  · rcases le_total v 1 with h1 | h1
    · rw [min_eq_right h1, max_eq_right h,
        max_eq_right (by nlinarith : (0 : ℝ) ≤ v * 100),
        min_eq_right (by nlinarith : v * 100 ≤ 100), mul_comm]
    · rw [min_eq_left h1, max_eq_right (by norm_num : (0 : ℝ) ≤ 1), mul_one,
        max_eq_right (by nlinarith : (0 : ℝ) ≤ v * 100),
        min_eq_left (by nlinarith : (100 : ℝ) ≤ v * 100)]

/-- C2. Explorer score: zero total observations give score 0 with label
"No data yet"; a nonzero total with exactly one genre gives score 5 with
label "Laser-Focused" (the branch returns before any entropy computation);
otherwise the score is `round(100 * clamp(0.6*evenness + 0.4*min(n/30,1),
0, 1))` with `evenness = H / log2(n)` for the Shannon entropy `H` of the
frequency distribution, and the label follows the 80/65/45/25 thresholds. -/
theorem c2_explorer_score (freqs : List ℕ) :
    (freqs.sum = 0 → computeExplorerScore freqs = (0, "No data yet")) ∧
    (freqs.sum ≠ 0 → freqs.length = 1 →
      computeExplorerScore freqs = (5, "Laser-Focused")) ∧
    (freqs.sum ≠ 0 → 2 ≤ freqs.length →
      (computeExplorerScore freqs).1 =
        round ((100 : ℝ) * clampUnit
          (0.6 * (specShannonEntropy freqs / Real.logb 2 (freqs.length : ℝ)) +
            0.4 * min ((freqs.length : ℝ) / 30) 1)) ∧
      (computeExplorerScore freqs).2 =
        explorerLabel (computeExplorerScore freqs).1) := by
  refine ⟨?_, ?_, ?_⟩
  · intro h0
    unfold computeExplorerScore
    rw [if_pos h0]
  · intro h0 h1
    unfold computeExplorerScore
    rw [if_neg h0, if_pos (by omega : freqs.length ≤ 1)]
  · intro h0 h2
    have hpos : (0 : ℝ) < Real.logb 2 (freqs.length : ℝ) :=
      Real.logb_pos (by norm_num) (by exact_mod_cast h2.trans_lt' (by norm_num))
    have hent : (freqs.map (fun (c : ℕ) =>
        if 0 < ((c : ℝ) / (freqs.sum : ℝ)) then
          ((c : ℝ) / (freqs.sum : ℝ)) * Real.logb 2 ((c : ℝ) / (freqs.sum : ℝ))
        else 0)).sum =
        (freqs.map (fun (c : ℕ) =>
          ((c : ℝ) / (freqs.sum : ℝ)) * Real.logb 2 ((c : ℝ) / (freqs.sum : ℝ)))).sum := by
      apply congrArg
      apply List.map_congr_left
      intro c _
      by_cases hc : 0 < ((c : ℝ) / (freqs.sum : ℝ))
      · rw [if_pos hc]
      · rw [if_neg hc]
        have hge : (0 : ℝ) ≤ (c : ℝ) / (freqs.sum : ℝ) :=
          div_nonneg (Nat.cast_nonneg c) (Nat.cast_nonneg _)
        have hz : ((c : ℝ) / (freqs.sum : ℝ)) = 0 := le_antisymm (not_lt.1 hc) hge
        rw [hz, zero_mul]
    have hlen : ¬ freqs.length ≤ 1 := by omega
    constructor
    · simp only [computeExplorerScore]
      rw [if_neg h0, if_neg hlen]
      dsimp only
      rw [if_pos hpos, hent, clamp_scale]
      congr 3
      unfold specShannonEntropy
      ring
    · simp only [computeExplorerScore, explorerLabel]
      rw [if_neg h0, if_neg hlen]

/-- Witness for C2: the empty frequency list hits the zero-total branch, a
single-genre list hits the `Laser-Focused` branch, and `[1, 1]` exercises the
general entropy formula and label equation. -/
theorem c2_explorer_score_witness :
    ([] : List ℕ).sum = 0 ∧
    computeExplorerScore [] = (0, "No data yet") ∧
    ([2] : List ℕ).sum ≠ 0 ∧ ([2] : List ℕ).length = 1 ∧
    computeExplorerScore [2] = (5, "Laser-Focused") ∧
    ([1, 1] : List ℕ).sum ≠ 0 ∧ 2 ≤ ([1, 1] : List ℕ).length ∧
    ((computeExplorerScore [1, 1]).1 =
        round ((100 : ℝ) * clampUnit
          (0.6 * (specShannonEntropy [1, 1] /
              Real.logb 2 ((([1, 1] : List ℕ).length : ℕ) : ℝ)) +
            0.4 * min (((([1, 1] : List ℕ).length : ℕ) : ℝ) / 30) 1)) ∧
      (computeExplorerScore [1, 1]).2 =
        explorerLabel (computeExplorerScore [1, 1]).1) :=
  ⟨rfl, (c2_explorer_score []).1 rfl,
   by decide, rfl, (c2_explorer_score [2]).2.1 (by decide) rfl,
   by decide, by decide, (c2_explorer_score [1, 1]).2.2 (by decide) (by decide)⟩

-- ─── Blind spots (profile-analysis.ts 205-241) ───────────────────

/-- `GENRE_ADJACENCY` (profile-analysis.ts 70-103) as a lookup function;
looking up an unmapped genre yields `[]` (the code's `?? []`). -/
def GENRE_ADJACENCY (g : String) : List String :=
  if g = "rock" then ["alt-rock", "indie", "grunge", "post-punk", "garage"]
  else if g = "alt-rock" then ["indie", "shoegaze", "post-punk", "grunge"]
  else if g = "indie" then ["indie-pop", "shoegaze", "lo-fi", "folk"]
  else if g = "indie-pop" then ["synth-pop", "dream-pop", "indie", "new wave"]
  else if g = "pop" then ["synth-pop", "indie-pop", "dance", "disco"]
  else if g = "hip-hop" then ["r-n-b", "trip-hop", "soul", "afrobeat"]
  else if g = "r-n-b" then ["neo-soul", "soul", "hip-hop", "funk"]
  else if g = "electronic" then ["house", "ambient", "synth-pop", "trip-hop", "dance"]
  else if g = "house" then ["disco", "dance", "electronic", "funk"]
  else if g = "jazz" then ["neo-soul", "bossa nova", "soul", "blues"]
  else if g = "soul" then ["neo-soul", "funk", "r-n-b", "blues"]
  else if g = "folk" then ["indie", "country", "blues", "acoustic"]
  else if g = "metal" then ["punk", "grunge", "alt-rock", "rock"]
  else if g = "punk" then ["post-punk", "ska", "grunge", "new wave"]
  else if g = "blues" then ["soul", "jazz", "folk", "funk"]
  else if g = "funk" then ["soul", "disco", "afrobeat", "r-n-b"]
  else if g = "classical" then ["ambient", "jazz"]
  else if g = "reggae" then ["ska", "afrobeat", "funk"]
  else if g = "country" then ["folk", "blues", "acoustic"]
  else if g = "ambient" then ["electronic", "lo-fi", "classical", "trip-hop"]
  else if g = "disco" then ["funk", "house", "dance", "pop"]
  else if g = "shoegaze" then ["dream-pop", "post-punk", "lo-fi", "ambient"]
  else if g = "post-punk" then ["new wave", "shoegaze", "punk", "synth-pop"]
  else if g = "synth-pop" then ["new wave", "electronic", "dance", "indie-pop"]
  else if g = "neo-soul" then ["soul", "r-n-b", "jazz", "funk"]
  else if g = "trip-hop" then ["electronic", "ambient", "hip-hop"]
  else if g = "lo-fi" then ["indie", "ambient", "shoegaze"]
  else if g = "afrobeat" then ["funk", "reggae", "hip-hop"]
  else if g = "ska" then ["punk", "reggae"]
  else if g = "grunge" then ["alt-rock", "punk", "rock"]
  else if g = "new wave" then ["post-punk", "synth-pop", "indie-pop"]
  else if g = "dance" then ["house", "electronic", "disco", "pop"]
  else []

/-- One blind-spot suggestion (the `BlindSpot` objects built in
profile-analysis.ts 205-241): `adjacentTo` is the optional JS field,
present only on adjacent suggestions. -/
structure BlindSpot where
  genre : String
  reason : String
  adjacentTo : Option String
deriving DecidableEq

/-- One step of the inner adjacency loop (profile-analysis.ts 212-218):
push `adj` as an adjacent spot unless it is already known, off-catalog, or
already suggested (`spots.find`). -/
def adjStep (known catalog : List String) (userGenre : String)
    (spots : List BlindSpot) (adj : String) : List BlindSpot :=
  if !known.contains adj && catalog.contains adj &&
      (spots.find? (fun s => s.genre == adj)).isNone then
    spots ++ [⟨adj, "adjacent", some userGenre⟩]
  else spots

/-- The adjacency pass of `computeBlindSpots` (profile-analysis.ts
210-220): both nested loops, iterating the known genres in insertion
order. -/
def blindAdjacent (known catalog : List String) : List BlindSpot :=
  known.foldl (fun sp ug =>
    (GENRE_ADJACENCY ug).foldl (adjStep known catalog ug) sp) []

/-- `computeBlindSpots` (profile-analysis.ts 205-241). The `SPOTIFY_GENRES`
catalog (imported from lib/genres.ts, a file not present in the sources) and
the random shuffle `sort(() => Math.random() - 0.5)` are parameters; the
final comparator sort (adjacent before untouched) is modelled as the stable
partition, which is what a stable `Array.prototype.sort` computes for a
two-valued comparator. -/
def computeBlindSpots (known catalog : List String)
    (shuffle : List String → List String) : List BlindSpot :=
  let spots := blindAdjacent known catalog
  let mainGenres := catalog.filter (fun g =>
    !known.contains g && (spots.find? (fun s => s.genre == g)).isNone)
  let spots2 := spots ++ ((shuffle mainGenres).take 5).map
    (fun g => ⟨g, "untouched", none⟩)
  let sorted := spots2.filter (fun s => s.reason == "adjacent") ++
    spots2.filter (fun s => !(s.reason == "adjacent"))
  sorted.take 12

/-- Modelled from the spec: `SPOTIFY_GENRES` (lib/genres.ts) is not among
the sources; the spec describes it only as the canonical genre catalog from
which adjacency targets and untouched fillers are drawn. This concrete
stand-in — the adjacency map's own vocabulary, 36 distinct labels —
instantiates the parameterized `computeBlindSpots` in the witness and the
counterexample. -/
def specGenreCatalog : List String :=
  ["rock", "alt-rock", "indie", "indie-pop", "pop", "hip-hop", "r-n-b",
   "electronic", "house", "jazz", "soul", "folk", "metal", "punk", "blues",
   "funk", "classical", "reggae", "country", "ambient", "disco", "shoegaze",
   "post-punk", "synth-pop", "neo-soul", "trip-hop", "lo-fi", "afrobeat",
   "ska", "grunge", "new wave", "dance", "bossa nova", "dream-pop",
   "acoustic", "garage"]

/-- What the adjacency pass guarantees of every spot it produces. -/
def AdjSpotOk (known catalog : List String) (s : BlindSpot) : Prop :=
  s.reason = "adjacent" ∧ s.genre ∉ known ∧ s.genre ∈ catalog ∧
  ∃ ug, s.adjacentTo = some ug ∧ ug ∈ known ∧ s.genre ∈ GENRE_ADJACENCY ug

lemma adjStep_eq (known catalog : List String) (ug adj : String)
    (spots : List BlindSpot) :
    (adjStep known catalog ug spots adj =
        spots ++ [⟨adj, "adjacent", some ug⟩] ∧
      adj ∉ known ∧ adj ∈ catalog ∧ ∀ s ∈ spots, s.genre ≠ adj) ∨
    (adjStep known catalog ug spots adj = spots ∧
      (adj ∈ known ∨ adj ∉ catalog ∨ adj ∈ spots.map BlindSpot.genre)) := by
  unfold adjStep
  split
  · next h =>
    left
    simp only [Bool.and_eq_true, Bool.not_eq_true', Option.isNone_iff_eq_none,
      List.find?_eq_none, beq_iff_eq] at h
    refine ⟨rfl, ?_, ?_, h.2⟩
    · have h1 := h.1.1
      simpa using h1
    · have h2 := h.1.2
      simpa using h2
  · next h =>
    right
    refine ⟨rfl, ?_⟩
    by_cases h1 : adj ∈ known
    · exact Or.inl h1
    by_cases h2 : adj ∈ catalog
    · right; right
      by_contra h3
      apply h
      have hfind : (spots.find? (fun s => s.genre == adj)) = none :=
        List.find?_eq_none.mpr (fun s hs => by
          simp only [beq_iff_eq]
          intro he
          exact h3 (he ▸ List.mem_map_of_mem BlindSpot.genre hs))
      simp [hfind, h1, h2]
    · exact Or.inr (Or.inl h2)

lemma adjFoldInner_ok {known catalog : List String} {ug : String}
    (hug : ug ∈ known) (l : List String)
    (hl : ∀ a ∈ l, a ∈ GENRE_ADJACENCY ug) (spots : List BlindSpot)
    (hs : ∀ s ∈ spots, AdjSpotOk known catalog s) :
    ∀ s ∈ l.foldl (adjStep known catalog ug) spots,
      AdjSpotOk known catalog s := by
  induction l generalizing spots with
  | nil => simpa using hs
  | cons a t ih =>
    rw [List.foldl_cons]
    refine ih (fun x hx => hl x (List.mem_cons_of_mem a hx)) _ ?_
    rcases adjStep_eq known catalog ug a spots with ⟨h, hk, hc, _⟩ | ⟨h, _⟩
    · rw [h]
      intro s hsmem
      rcases List.mem_append.1 hsmem with h1 | h1
      · exact hs s h1
      · rcases List.mem_singleton.1 h1 with rfl
        exact ⟨rfl, hk, hc, ug, rfl, hug, hl a (List.mem_cons_self a t)⟩
    · rw [h]; exact hs

lemma adjFoldInner_nodup {known catalog : List String} {ug : String}
    (l : List String) (spots : List BlindSpot)
    (hnd : (spots.map BlindSpot.genre).Nodup) :
    ((l.foldl (adjStep known catalog ug) spots).map BlindSpot.genre).Nodup := by
  induction l generalizing spots with
  | nil => simpa using hnd
  | cons a t ih =>
    rw [List.foldl_cons]
    refine ih _ ?_
    rcases adjStep_eq known catalog ug a spots with ⟨h, _, _, hnew⟩ | ⟨h, _⟩
    · rw [h, List.map_append]
      refine List.Nodup.append hnd (List.nodup_singleton _) ?_
      intro x hx hx1
      simp only [List.map_cons, List.map_nil, List.mem_singleton] at hx1
      subst hx1
      rcases List.mem_map.1 hx with ⟨s, hsmem, hge⟩
      exact hnew s hsmem hge
    · rw [h]; exact hnd

lemma adjFoldInner_sub {known catalog : List String} {ug : String}
    (l : List String) (spots : List BlindSpot) {s : BlindSpot}
    (hmem : s ∈ spots) : s ∈ l.foldl (adjStep known catalog ug) spots := by
  induction l generalizing spots with
  | nil => simpa using hmem
  | cons a t ih =>
    rw [List.foldl_cons]
    refine ih _ ?_
    rcases adjStep_eq known catalog ug a spots with ⟨h, _⟩ | ⟨h, _⟩
    · rw [h]; exact List.mem_append_left _ hmem
    · rw [h]; exact hmem

lemma adjFoldInner_genre_sub {known catalog : List String} {ug : String}
    (l : List String) (spots : List BlindSpot) {g : String}
    (hmem : g ∈ spots.map BlindSpot.genre) :
    g ∈ (l.foldl (adjStep known catalog ug) spots).map BlindSpot.genre := by
  rcases List.mem_map.1 hmem with ⟨s, hsm, rfl⟩
  exact List.mem_map_of_mem _ (adjFoldInner_sub l spots hsm)

lemma adjFoldInner_covers {known catalog : List String} {ug : String}
    (l : List String) (spots : List BlindSpot) {adj : String}
    (ha : adj ∈ l) (hk : adj ∉ known) (hc : adj ∈ catalog) :
    adj ∈ (l.foldl (adjStep known catalog ug) spots).map BlindSpot.genre := by
  induction l generalizing spots with
  | nil => simp at ha
  | cons a t ih =>
    rw [List.foldl_cons]
    rcases List.mem_cons.1 ha with rfl | hat
    · rcases adjStep_eq known catalog ug adj spots with ⟨h, _⟩ | ⟨h, hwhy⟩
      · rw [h]
        refine adjFoldInner_genre_sub t _ ?_
        rw [List.map_append]
        exact List.mem_append_right _ (by simp)
      · rw [h]
        rcases hwhy with h1 | h1 | h1
        · exact absurd h1 hk
        · exact absurd hc h1
        · exact adjFoldInner_genre_sub t _ h1
    · exact ih _ hat

lemma blindOuter_ok {known catalog : List String} (ks : List String)
    (hks : ∀ u ∈ ks, u ∈ known) (spots : List BlindSpot)
    (hs : ∀ s ∈ spots, AdjSpotOk known catalog s) :
    ∀ s ∈ ks.foldl (fun sp ug =>
        (GENRE_ADJACENCY ug).foldl (adjStep known catalog ug) sp) spots,
      AdjSpotOk known catalog s := by
  induction ks generalizing spots with
  | nil => simpa using hs
  | cons u t ih =>
    rw [List.foldl_cons]
    exact ih (fun x hx => hks x (List.mem_cons_of_mem u hx)) _
      (adjFoldInner_ok (hks u (List.mem_cons_self u t)) _
        (fun a ha => ha) _ hs)

lemma blindOuter_nodup {known catalog : List String} (ks : List String)
    (spots : List BlindSpot) (hnd : (spots.map BlindSpot.genre).Nodup) :
    ((ks.foldl (fun sp ug =>
        (GENRE_ADJACENCY ug).foldl (adjStep known catalog ug) sp)
      spots).map BlindSpot.genre).Nodup := by
  induction ks generalizing spots with
  | nil => simpa using hnd
  | cons u t ih =>
    rw [List.foldl_cons]
    exact ih _ (adjFoldInner_nodup _ _ hnd)

lemma blindOuter_genre_sub {known catalog : List String} (ks : List String)
    (spots : List BlindSpot) {g : String}
    (hmem : g ∈ spots.map BlindSpot.genre) :
    g ∈ (ks.foldl (fun sp ug =>
        (GENRE_ADJACENCY ug).foldl (adjStep known catalog ug) sp)
      spots).map BlindSpot.genre := by
  induction ks generalizing spots with
  | nil => simpa using hmem
  | cons u t ih =>
    rw [List.foldl_cons]
    exact ih _ (adjFoldInner_genre_sub _ _ hmem)

lemma blindOuter_covers {known catalog : List String} (ks : List String)
    (spots : List BlindSpot) {ug adj : String}
    (hug : ug ∈ ks) (hadj : adj ∈ GENRE_ADJACENCY ug)
    (hk : adj ∉ known) (hc : adj ∈ catalog) :
    adj ∈ (ks.foldl (fun sp u =>
        (GENRE_ADJACENCY u).foldl (adjStep known catalog u) sp)
      spots).map BlindSpot.genre := by
  induction ks generalizing spots with
  | nil => simp at hug
  | cons u t ih =>
    rw [List.foldl_cons]
    rcases List.mem_cons.1 hug with rfl | hut
    · exact blindOuter_genre_sub t _ (adjFoldInner_covers _ _ hadj hk hc)
    · exact ih _ hut

lemma blindAdjacent_ok {known catalog : List String} :
    ∀ s ∈ blindAdjacent known catalog, AdjSpotOk known catalog s := by
  unfold blindAdjacent
  exact blindOuter_ok known (fun _ h => h) [] (by simp)

lemma blindAdjacent_nodup {known catalog : List String} :
    ((blindAdjacent known catalog).map BlindSpot.genre).Nodup := by
  unfold blindAdjacent
  exact blindOuter_nodup known [] (by simp)

lemma blindAdjacent_covers {known catalog : List String} {ug adj : String}
    (hug : ug ∈ known) (hadj : adj ∈ GENRE_ADJACENCY ug)
    (hk : adj ∉ known) (hc : adj ∈ catalog) :
    adj ∈ (blindAdjacent known catalog).map BlindSpot.genre := by
  unfold blindAdjacent
  exact blindOuter_covers known [] hug hadj hk hc

lemma filterPartition (A U : List BlindSpot)
    (hA : ∀ s ∈ A, s.reason = "adjacent")
    (hU : ∀ s ∈ U, s.reason = "untouched") :
    (A ++ U).filter (fun s => s.reason == "adjacent") ++
      (A ++ U).filter (fun s => !(s.reason == "adjacent")) = A ++ U := by
  rw [List.filter_append, List.filter_append,
    List.filter_eq_self.mpr (fun s hs => by simp [hA s hs]),
    List.filter_eq_nil_iff.mpr (fun s hs => by simp [hU s hs]),
    List.filter_eq_nil_iff.mpr (fun s hs => by simp [hA s hs]),
    List.filter_eq_self.mpr (fun s hs => by simp [hU s hs])]
  simp

lemma computeBlindSpots_eq (known catalog : List String)
    (shuffle : List String → List String) :
    computeBlindSpots known catalog shuffle =
      (blindAdjacent known catalog ++
        ((shuffle (catalog.filter (fun g =>
            !known.contains g && ((blindAdjacent known catalog).find?
              (fun s => s.genre == g)).isNone))).take 5).map
          (fun g => (⟨g, "untouched", none⟩ : BlindSpot))).take 12 := by
  have hA : ∀ s ∈ blindAdjacent known catalog, s.reason = "adjacent" :=
    fun s hs => (blindAdjacent_ok s hs).1
  have hU : ∀ s ∈ ((shuffle (catalog.filter (fun g =>
      !known.contains g && ((blindAdjacent known catalog).find?
        (fun s => s.genre == g)).isNone))).take 5).map
      (fun g => (⟨g, "untouched", none⟩ : BlindSpot)),
      s.reason = "untouched" := by
    intro s hs
    rcases List.mem_map.1 hs with ⟨g, _, rfl⟩
    rfl
  simp only [computeBlindSpots]
  rw [filterPartition _ _ hA hU]

lemma blindSpots_take_props (known catalog : List String)
    (A U : List BlindSpot)
    (hAok : ∀ s ∈ A, AdjSpotOk known catalog s)
    (hAnd : (A.map BlindSpot.genre).Nodup)
    (hUreason : ∀ s ∈ U, s.reason = "untouched")
    (hUnone : ∀ s ∈ U, s.adjacentTo = none)
    (hUok : ∀ s ∈ U, s.genre ∈ catalog ∧ s.genre ∉ known ∧
      s.genre ∉ A.map BlindSpot.genre)
    (hUnd : (U.map BlindSpot.genre).Nodup)
    (hUlen : U.length ≤ 5)
    (hcov : ∀ ug ∈ known, ∀ adj ∈ GENRE_ADJACENCY ug,
      adj ∉ known → adj ∈ catalog → adj ∈ A.map BlindSpot.genre) :
    ((A ++ U).take 12).length ≤ 12 ∧
    (((A ++ U).take 12).map BlindSpot.genre).Nodup ∧
    (∃ a u, (A ++ U).take 12 = a ++ u ∧
      (∀ s ∈ a, s.reason = "adjacent") ∧
      (∀ s ∈ u, s.reason = "untouched")) ∧
    (∀ s ∈ (A ++ U).take 12, s.reason = "adjacent" →
      s.genre ∉ known ∧ s.genre ∈ catalog ∧
      ∃ ug, s.adjacentTo = some ug ∧ ug ∈ known ∧
        s.genre ∈ GENRE_ADJACENCY ug) ∧
    ((((A ++ U).take 12).filter
        (fun s => s.reason == "adjacent")).length < 12 →
      ∀ ug ∈ known, ∀ adj ∈ GENRE_ADJACENCY ug, adj ∉ known →
        adj ∈ catalog →
        ∃ s ∈ (A ++ U).take 12, s.reason = "adjacent" ∧ s.genre = adj) ∧
    (∀ s ∈ (A ++ U).take 12, s.reason = "untouched" →
      s.genre ∉ known ∧ s.genre ∈ catalog ∧ s.adjacentTo = none) ∧
    (((A ++ U).take 12).filter
        (fun s => s.reason == "untouched")).length ≤ 5 := by
  have hbig : ((A ++ U).map BlindSpot.genre).Nodup := by
    rw [List.map_append]
    refine List.Nodup.append hAnd hUnd ?_
    intro x hxA hxU
    rcases List.mem_map.1 hxU with ⟨s, hsU, rfl⟩
    exact (hUok s hsU).2.2 hxA
  refine ⟨List.length_take_le 12 _,
    List.Nodup.sublist (List.Sublist.map _ (List.take_sublist 12 _)) hbig,
    ⟨A.take 12, U.take (12 - A.length), List.take_append_eq_append_take,
      fun s hs => (hAok s (List.mem_of_mem_take hs)).1,
      fun s hs => hUreason s (List.mem_of_mem_take hs)⟩,
    ?_, ?_, ?_, ?_⟩
  · intro s hs hr
    rcases List.mem_append.1 (List.mem_of_mem_take hs) with h1 | h1
    · exact (hAok s h1).2
    · have h2 := hUreason s h1
      rw [hr] at h2
      exact absurd h2 (by decide)
  · intro hlt ug hug adj hadj hk hc
    have hfiltA : ((A ++ U).take 12).filter
        (fun s => s.reason == "adjacent") = A.take 12 := by
      rw [List.take_append_eq_append_take, List.filter_append,
        List.filter_eq_self.mpr (fun s hs => by
          simp [(hAok s (List.mem_of_mem_take hs)).1]),
        List.filter_eq_nil_iff.mpr (fun s hs => by
          simp [hUreason s (List.mem_of_mem_take hs)]),
        List.append_nil]
    rw [hfiltA, List.length_take] at hlt
    have hAlen : A.length ≤ 12 := by omega
    have htake : A.take 12 = A := List.take_of_length_le hAlen
    rcases List.mem_map.1 (hcov ug hug adj hadj hk hc) with ⟨s, hsA, hge⟩
    refine ⟨s, ?_, (hAok s hsA).1, hge⟩
    rw [List.take_append_eq_append_take, htake]
    exact List.mem_append_left _ hsA
  · intro s hs hr
    rcases List.mem_append.1 (List.mem_of_mem_take hs) with h1 | h1
    · have h2 := (hAok s h1).1
      rw [hr] at h2
      exact absurd h2 (by decide)
    · exact ⟨(hUok s h1).2.1, (hUok s h1).1, hUnone s h1⟩
  · rw [List.take_append_eq_append_take, List.filter_append,
      List.filter_eq_nil_iff.mpr (fun s hs => by
        simp [(hAok s (List.mem_of_mem_take hs)).1]),
      List.nil_append]
    calc ((U.take (12 - A.length)).filter
          (fun s => s.reason == "untouched")).length
        ≤ (U.take (12 - A.length)).length := List.length_filter_le _ _
      _ ≤ U.length := by rw [List.length_take]; omega
      _ ≤ 5 := hUlen

/-- C6. Blind spots: at most 12 suggestions with no genre repeated; the
list is an adjacent block followed by an untouched block; every adjacent
entry is an adjacency-graph neighbour of a known genre that is itself
unknown and on the catalog, tagged with a known genre it is adjacent to;
when fewer than 12 adjacent suggestions exist, every eligible neighbour
appears; every untouched entry is an unknown catalog genre with no tag;
and — correcting the claim — the untouched fill is capped at 5 entries
(the code's `shuffled.slice(0, 5)`), not topped up to 12 total. -/
theorem c6_blind_spots (known catalog : List String)
    (shuffle : List String → List String)
    (hsh : ∀ l, (shuffle l).Perm l) (hcat : catalog.Nodup) :
    (computeBlindSpots known catalog shuffle).length ≤ 12 ∧
    ((computeBlindSpots known catalog shuffle).map BlindSpot.genre).Nodup ∧
    (∃ a u, computeBlindSpots known catalog shuffle = a ++ u ∧
      (∀ s ∈ a, s.reason = "adjacent") ∧
      (∀ s ∈ u, s.reason = "untouched")) ∧
    (∀ s ∈ computeBlindSpots known catalog shuffle,
      s.reason = "adjacent" →
      s.genre ∉ known ∧ s.genre ∈ catalog ∧
      ∃ ug, s.adjacentTo = some ug ∧ ug ∈ known ∧
        s.genre ∈ GENRE_ADJACENCY ug) ∧
    (((computeBlindSpots known catalog shuffle).filter
        (fun s => s.reason == "adjacent")).length < 12 →
      ∀ ug ∈ known, ∀ adj ∈ GENRE_ADJACENCY ug, adj ∉ known →
        adj ∈ catalog →
        ∃ s ∈ computeBlindSpots known catalog shuffle,
          s.reason = "adjacent" ∧ s.genre = adj) ∧
    (∀ s ∈ computeBlindSpots known catalog shuffle,
      s.reason = "untouched" →
      s.genre ∉ known ∧ s.genre ∈ catalog ∧ s.adjacentTo = none) ∧
    ((computeBlindSpots known catalog shuffle).filter
        (fun s => s.reason == "untouched")).length ≤ 5 := by
  rw [computeBlindSpots_eq known catalog shuffle]
  refine blindSpots_take_props known catalog _ _
    (fun s hs => blindAdjacent_ok s hs) blindAdjacent_nodup
    ?_ ?_ ?_ ?_ ?_
    (fun ug hug adj hadj hk hc => blindAdjacent_covers hug hadj hk hc)
  · intro s hs
    rcases List.mem_map.1 hs with ⟨g, _, rfl⟩
    rfl
  · intro s hs
    rcases List.mem_map.1 hs with ⟨g, _, rfl⟩
    rfl
  · intro s hs
    rcases List.mem_map.1 hs with ⟨g, hg, rfl⟩
    have hgM := (hsh _).mem_iff.mp (List.mem_of_mem_take hg)
    rcases List.mem_filter.1 hgM with ⟨hcmem, hp⟩
    simp only [Bool.and_eq_true, Bool.not_eq_true', Option.isNone_iff_eq_none,
      List.find?_eq_none, beq_iff_eq] at hp
    refine ⟨hcmem, by simpa using hp.1, ?_⟩
    intro hmem
    rcases List.mem_map.1 hmem with ⟨t, htm, hgt⟩
    exact hp.2 t htm hgt
  · have hid : ∀ (l : List String), (l.map
        (fun g => (⟨g, "untouched", none⟩ : BlindSpot))).map
          BlindSpot.genre = l := by
      intro l
      simp [List.map_map, Function.comp_def]
    rw [hid]
    exact List.Nodup.sublist (List.take_sublist 5 _)
      ((hsh _).nodup_iff.mpr (hcat.filter _))
  · rw [List.length_map]
    exact List.length_take_le 5 _

/-- Witness for C6 at `known = ["jazz"]` with the spec-modelled catalog and
the identity shuffle: the four adjacent suggestions (jazz's adjacency
neighbours, tagged with "jazz") precede the five untouched fillers. -/
theorem c6_blind_spots_witness :
    specGenreCatalog.Nodup ∧
    (computeBlindSpots ["jazz"] specGenreCatalog id).length ≤ 12 ∧
    ((computeBlindSpots ["jazz"] specGenreCatalog id).map
      BlindSpot.genre).Nodup ∧
    computeBlindSpots ["jazz"] specGenreCatalog id =
      [⟨"neo-soul", "adjacent", some "jazz"⟩,
       ⟨"bossa nova", "adjacent", some "jazz"⟩,
       ⟨"soul", "adjacent", some "jazz"⟩,
       ⟨"blues", "adjacent", some "jazz"⟩,
       ⟨"rock", "untouched", none⟩, ⟨"alt-rock", "untouched", none⟩,
       ⟨"indie", "untouched", none⟩, ⟨"indie-pop", "untouched", none⟩,
       ⟨"pop", "untouched", none⟩] := by
  refine ⟨by decide, ?_, ?_, by decide⟩
  · exact (c6_blind_spots ["jazz"] specGenreCatalog id
      (fun l => List.Perm.refl l) (by decide)).1
  · exact (c6_blind_spots ["jazz"] specGenreCatalog id
      (fun l => List.Perm.refl l) (by decide)).2.1

/-- C6 counterexample: with no known genres there are no adjacent
suggestions and every one of the 36 catalog genres is an eligible
"untouched" filler, yet `computeBlindSpots` returns only 5 entries — the
code appends `shuffled.slice(0, 5)`, so the remaining slots are not filled
up to the claimed 12 total. -/
theorem c6_blind_spots_counterexample :
    36 ≤ specGenreCatalog.length ∧
    (computeBlindSpots [] specGenreCatalog id).all
      (fun s => s.reason == "untouched") = true ∧
    (computeBlindSpots [] specGenreCatalog id).length = 5 ∧
    ¬ (computeBlindSpots [] specGenreCatalog id).length = 12 := by decide
